import Mathlib

/-!
Shallow embedding of the GlassDial firmware (`src/main.cpp`): the destruction
state machine, the fractal crack store, the particle store, the button handler
and the idle auto-recover policy, together with proofs about the claims of the
specification.

Modelling conventions:
* C `float` values are embedded as exact unnormalised rationals (`Q` below,
  an integer numerator/denominator pair whose operations mirror the source
  arithmetic step by step and keep the denominator positive); `Q.val` maps a
  `Q` to its rational value `ℚ`, and the semantic theorems are stated about
  values.  The claims under study are about clamping, thresholds and store
  sizes, not about float rounding.
* `millis()` timestamps are naturals; unsigned subtraction is `Nat` truncated
  subtraction.
* The Arduino `random(lo, hi)` calls are threaded through an explicit stream
  of integers (`Rng`); a draw yields `lo + h % (hi - lo)`, which lies in
  `[lo, hi)` exactly as the hardware call does.
* `cos`, `sin`, `sqrt` and `DEG_TO_RAD` come from `<cmath>` / Arduino and are
  external collaborators; they are abstracted as an `Ext` record of rational
  stand-ins that is threaded through the functions that call them.
* `M5.Speaker.tone(freq, dur)` calls (both from `playSound` and from the
  tone-based `hapticFeedback`) are recorded as `(freq, dur)` cue events in a
  per-tick list; the display drawing itself is external and not modelled, but
  the two render routines that mutate core state (`renderCrack`, which seeds
  and branches cracks, and `renderRebuild`, which fades crack alphas) are.
* The per-tick rotary delta, the button event and the clock are the tick
  inputs; a failed I2C sample is a zero delta, exactly as in `updateEncoder`.
-/

namespace GlassDial


/-- Exact unnormalised rational: the value is `num / den`; every operation
below keeps `den` positive when its inputs have positive `den`. -/
structure Q where
  num : ℤ
  den : ℤ
deriving DecidableEq

/-- Embed an integer. -/
def Q.ofInt (n : ℤ) : Q := ⟨n, 1⟩

/-- Addition. -/
def Q.add (a b : Q) : Q := ⟨a.num * b.den + b.num * a.den, a.den * b.den⟩

/-- Subtraction. -/
def Q.sub (a b : Q) : Q := ⟨a.num * b.den - b.num * a.den, a.den * b.den⟩

/-- Multiplication. -/
def Q.mul (a b : Q) : Q := ⟨a.num * b.num, a.den * b.den⟩

/-- Negation. -/
def Q.neg (a : Q) : Q := ⟨-a.num, a.den⟩

/-- Division (sign-corrected so the denominator stays positive; division by
zero, which the firmware never performs, yields zero). -/
def Q.div (a b : Q) : Q :=
  if 0 < b.num then ⟨a.num * b.den, a.den * b.num⟩
  else if b.num < 0 then ⟨-(a.num * b.den), -(a.den * b.num)⟩
  else ⟨0, 1⟩

/-- Strict comparison (meaningful whenever both denominators are positive). -/
def Q.blt (a b : Q) : Bool := a.num * b.den < b.num * a.den

/-- Non-strict comparison. -/
def Q.ble (a b : Q) : Bool := a.num * b.den ≤ b.num * a.den

/-- Value-equality test. -/
def Q.veq (a b : Q) : Bool := a.num * b.den == b.num * a.den

/-- The rational value of a `Q`. -/
def Q.val (a : Q) : ℚ := (a.num : ℚ) / (a.den : ℚ)

/-- C `abs` on a float. -/
def cAbs (x : Q) : Q := if Q.blt x (Q.ofInt 0) then x.neg else x

/-- Arduino `constrain(x, lo, hi)`. -/
def constrain (x lo hi : Q) : Q :=
  if Q.blt x lo then lo else if Q.blt hi x then hi else x

/-- The `State` enumeration of the source. -/
inductive St where
  | NORMAL
  | CRACK
  | SHATTER
  | SILENCE
  | REBUILD
  | RECOVERY
deriving DecidableEq

/-- The `Crack` struct of the source. -/
structure Crack where
  startX : Q
  startY : Q
  endX : Q
  endY : Q
  angle : Q
  length : Q
  generation : ℤ
  alpha : Q
  active : Bool
deriving DecidableEq

/-- The `Particle` struct of the source. -/
structure Particle where
  x : Q
  y : Q
  vx : Q
  vy : Q
  size : Q
  alpha : Q
  active : Bool
deriving DecidableEq

/-- Explicit stream of random draws standing for the Arduino `random`. -/
structure Rng where
  stream : List ℤ
deriving DecidableEq

/-- `random(lo, hi)`: a value in `[lo, hi)` taken from the stream. -/
def Rng.next (r : Rng) (lo hi : ℤ) : ℤ × Rng :=
  match r.stream with
  | [] => (lo, ⟨[]⟩)
  | h :: t => (lo + Int.emod h (hi - lo), ⟨t⟩)

/-- External math collaborators (`cos`, `sin`, `sqrt`, `DEG_TO_RAD`). -/
structure Ext where
  cosE : Q → Q
  sinE : Q → Q
  sqrtE : Q → Q
  degToRad : Q

/-- Button event sampled for one tick (`wasPressed` / `pressedFor(1000)`). -/
inductive Btn where
  | noPress
  | shortPress
  | longPress
deriving DecidableEq

/-- The mutable global state of the firmware. -/
structure Sys where
  currentState : St
  previousState : St
  encoderValue : ℤ
  lastEncoderValue : ℤ
  encoderDelta : ℤ
  rotationSpeed : Q
  destructionLevel : Q
  cracks : List Crack
  particles : List Particle
  lastUpdateTime : ℕ
  stateStartTime : ℕ
  lastInteractionTime : ℕ
  rng : Rng
  cues : List (ℕ × ℕ)
deriving DecidableEq

/-- `MAX_CRACKS` -/
def MAX_CRACKS : ℕ := 80

/-- `MAX_PARTICLES` -/
def MAX_PARTICLES : ℕ := 150

/-- `CRACK_THRESHOLD = 0.15f` -/
def CRACK_THRESHOLD : Q := ⟨15, 100⟩

/-- `SHATTER_THRESHOLD = 0.65f` -/
def SHATTER_THRESHOLD : Q := ⟨65, 100⟩

/-- `AUTO_RECOVER_TIME = 10000` ms -/
def AUTO_RECOVER_TIME : ℕ := 10000

/-- Record a `M5.Speaker.tone(freq, dur)` call as a cue event. -/
def emitTone (s : Sys) (freq dur : ℕ) : Sys :=
  { s with cues := s.cues ++ [(freq, dur)] }

/-- `updateDestruction`: `destructionLevel += encoderDelta * 0.003f`, clamped
to `[0, 1]`. -/
def updateDestruction (s : Sys) : Sys :=
  { s with destructionLevel :=
      (constrain (s.destructionLevel.add ((Q.ofInt s.encoderDelta).mul ⟨3, 1000⟩))
        (Q.ofInt 0) (Q.ofInt 1)) }

/-- `updateEncoder`, with the sampled delta supplied as input (a failed I2C
read is a zero delta). -/
def updateEncoder (delta : ℤ) (now : ℕ) (s : Sys) : Sys :=
  let s1 : Sys := { s with encoderDelta := delta,
                           encoderValue := s.encoderValue + delta }
  if delta ≠ 0 then
    let s2 : Sys := { s1 with lastInteractionTime := now,
                              rotationSpeed :=
                                constrain ((Q.ofInt delta).div (Q.ofInt 10))
                                  (Q.ofInt (-1)) (Q.ofInt 1) }
    let s3 : Sys := updateDestruction s2
    { s3 with lastEncoderValue := s3.encoderValue }
  else
    { s1 with rotationSpeed := s1.rotationSpeed.mul ⟨9, 10⟩ }

/-- `generateCrack(centerX, centerY, angle, generation)`: silently returns if
the store is at `MAX_CRACKS`, otherwise appends one segment whose length is
`random(15, 40) / (generation + 1)`. -/
def generateCrack (ext : Ext) (cx cy angle : Q) (gen : ℤ) (s : Sys) : Sys :=
  if MAX_CRACKS ≤ s.cracks.length then s
  else
    let lr := s.rng.next 15 40
    let len : Q := (Q.ofInt lr.1).div ((Q.ofInt gen).add (Q.ofInt 1))
    let c : Crack :=
      { startX := cx, startY := cy,
        endX := cx.add ((ext.cosE angle).mul len),
        endY := cy.add ((ext.sinE angle).mul len),
        angle := angle, length := len,
        generation := gen, alpha := Q.ofInt 1, active := true }
    { s with rng := lr.2, cracks := s.cracks ++ [c] }

/-- The `while (cracks.size() < targetCracks && cracks.size() < MAX_CRACKS)`
seeding loop of `renderCrack`, with enough fuel to reach either bound. -/
def seedLoop (ext : Ext) (target : ℤ) : ℕ → Sys → Sys
  | 0, s => s
  | fuel + 1, s =>
    if (s.cracks.length : ℤ) < target ∧ s.cracks.length < MAX_CRACKS then
      let ar := s.rng.next 0 360
      let s1 := { s with rng := ar.2 }
      seedLoop ext target fuel
        (generateCrack ext (Q.ofInt 120) (Q.ofInt 120)
          ((Q.ofInt ar.1).mul ext.degToRad) 0 s1)
    else s

/-- The branching pass of `renderCrack`: for each crack of the snapshot with
`generation < 2`, with probability `random(100) < 30` seed a child from its
endpoint at `angle + random(-30, 30) * DEG_TO_RAD`. -/
def branchLoop (ext : Ext) : List Crack → Sys → Sys
  | [], s => s
  | c :: rest, s =>
    if c.active ∧ c.generation < 2 then
      let br := s.rng.next 0 100
      let s1 := { s with rng := br.2 }
      if br.1 < 30 then
        let dr := s1.rng.next (-30) 30
        let s2 := { s1 with rng := dr.2 }
        branchLoop ext rest
          (generateCrack ext c.endX c.endY
            (c.angle.add ((Q.ofInt dr.1).mul ext.degToRad))
            (c.generation + 1) s2)
      else branchLoop ext rest s1
    else branchLoop ext rest s

/-- `renderCrack`: seed cracks up to
`(int)((destructionLevel - CRACK_THRESHOLD) / (SHATTER_THRESHOLD - CRACK_THRESHOLD) * MAX_CRACKS)`
(C truncating cast) and run the probabilistic branching pass over the store. -/
def renderCrack (ext : Ext) (s : Sys) : Sys :=
  let q : Q := ((s.destructionLevel.sub CRACK_THRESHOLD).div
    (SHATTER_THRESHOLD.sub CRACK_THRESHOLD)).mul (Q.ofInt 80)
  let target : ℤ := Int.tdiv q.num q.den
  let s1 := seedLoop ext target MAX_CRACKS s
  branchLoop ext s1.cracks s1

/-- `renderRebuild`: every crack alpha decays by `0.95` per frame (the particle
and glow drawing is display-only). -/
def renderRebuild (s : Sys) : Sys :=
  { s with cracks := s.cracks.map (fun c => { c with alpha := c.alpha.mul ⟨19, 20⟩ }) }

/-- `renderState`: only the CRACK and REBUILD renderers mutate core state. -/
def renderState (ext : Ext) (s : Sys) : Sys :=
  match s.currentState with
  | St.CRACK => renderCrack ext s
  | St.REBUILD => renderRebuild s
  | _ => s

/-- One iteration of the spawn loop of `generateParticles`. -/
def spawnOne (ext : Ext) (pr : List Particle × Rng) : List Particle × Rng :=
  let ar := pr.2.next 0 360
  let angle : Q := (Q.ofInt ar.1).mul ext.degToRad
  let dr := ar.2.next 10 60
  let v1 := dr.2.next 1 4
  let v2 := v1.2.next 1 4
  let sz := v2.2.next 1 3
  let p : Particle :=
    { x := (Q.ofInt 120).add ((ext.cosE angle).mul (Q.ofInt dr.1)),
      y := (Q.ofInt 120).add ((ext.sinE angle).mul (Q.ofInt dr.1)),
      vx := (ext.cosE angle).mul (Q.ofInt v1.1),
      vy := (ext.sinE angle).mul (Q.ofInt v2.1),
      size := Q.ofInt sz.1, alpha := Q.ofInt 1, active := true }
  (pr.1 ++ [p], sz.2)

/-- The `for (int i = 0; i < MAX_PARTICLES; i++)` loop of `generateParticles`. -/
def spawnLoop (ext : Ext) : ℕ → List Particle × Rng → List Particle × Rng
  | 0, pr => pr
  | n + 1, pr => spawnLoop ext n (spawnOne ext pr)

/-- `generateParticles`: clear the store, then push `MAX_PARTICLES` fresh
particles. -/
def generateParticles (ext : Ext) (s : Sys) : Sys :=
  let pr := spawnLoop ext MAX_PARTICLES ([], s.rng)
  { s with particles := pr.1, rng := pr.2 }

/-- Per-particle body of `updateParticles` (disperse in SHATTER/SILENCE,
converge in REBUILD, untouched otherwise). -/
def updParticle (st : St) (ext : Ext) (p : Particle) : Particle :=
  if p.active = false then p
  else if st = St.SHATTER ∨ st = St.SILENCE then
    let x := p.x.add p.vx
    let y := p.y.add p.vy
    let vx := p.vx.mul ⟨49, 50⟩
    let vy := p.vy.mul ⟨49, 50⟩
    let a1 := p.alpha.mul ⟨199, 200⟩
    let a2 :=
      if Q.blt x (Q.ofInt 0) ∨ Q.blt (Q.ofInt 240) x
          ∨ Q.blt y (Q.ofInt 0) ∨ Q.blt (Q.ofInt 240) y then
        a1.mul ⟨9, 10⟩
      else a1
    { p with x := x, y := y, vx := vx, vy := vy, alpha := a2,
             active := if Q.blt a2 ⟨1, 10⟩ then false else true }
  else if st = St.REBUILD then
    let dx := (Q.ofInt 120).sub p.x
    let dy := (Q.ofInt 120).sub p.y
    let dist := ext.sqrtE ((dx.mul dx).add (dy.mul dy))
    if Q.blt (Q.ofInt 5) dist then
      let vx := dx.mul ⟨1, 20⟩
      let vy := dy.mul ⟨1, 20⟩
      { p with vx := vx, vy := vy, x := p.x.add vx, y := p.y.add vy }
    else { p with active := false }
  else p

/-- `updateParticles`. -/
def updateParticles (ext : Ext) (s : Sys) : Sys :=
  { s with particles := s.particles.map (updParticle s.currentState ext) }

/-- `updateState`: the destruction state machine, with the one-shot transition
effects (particle burst, tones) fired on the edges. -/
def updateState (ext : Ext) (now : ℕ) (s : Sys) : Sys :=
  let s0 : Sys := { s with previousState := s.currentState }
  match s0.currentState with
  | St.NORMAL =>
    if Q.blt CRACK_THRESHOLD s0.destructionLevel then
      emitTone (emitTone { s0 with currentState := St.CRACK, stateStartTime := now }
        1500 50) 100 60
    else s0
  | St.CRACK =>
    if Q.blt SHATTER_THRESHOLD s0.destructionLevel then
      emitTone (emitTone
        (generateParticles ext { s0 with currentState := St.SHATTER, stateStartTime := now })
        2000 200) 100 300
    else if Q.blt s0.destructionLevel CRACK_THRESHOLD then
      { s0 with currentState := St.NORMAL, cracks := [], stateStartTime := now }
    else s0
  | St.SHATTER =>
    let s1 := updateParticles ext s0
    let s2 :=
      if s1.encoderDelta < -2 then
        emitTone (emitTone { s1 with currentState := St.REBUILD, stateStartTime := now }
          800 100) 100 500
      else s1
    if 1000 < now - s2.lastInteractionTime ∧ Q.blt (cAbs s2.rotationSpeed) ⟨1, 100⟩ then
      { s2 with currentState := St.SILENCE, stateStartTime := now }
    else s2
  | St.SILENCE =>
    if s0.encoderDelta < 0 then
      emitTone { s0 with currentState := St.REBUILD, stateStartTime := now } 800 100
    else s0
  | St.REBUILD =>
    let s1 := updateParticles ext s0
    if Q.blt s1.destructionLevel ⟨5, 100⟩ then
      emitTone (emitTone { s1 with currentState := St.RECOVERY, stateStartTime := now }
        1200 150) 100 40
    else s1
  | St.RECOVERY =>
    if 800 < now - s0.stateStartTime then
      { s0 with currentState := St.NORMAL, particles := [], cracks := [],
                destructionLevel := Q.ofInt 0, stateStartTime := now }
    else s0

/-- `handleButton`: short press steps one stage back, long press fully resets. -/
def handleButton (btn : Btn) (now : ℕ) (s : Sys) : Sys :=
  match btn with
  | Btn.noPress => s
  | Btn.shortPress =>
    let s1 : Sys := { s with lastInteractionTime := now }
    let s2 : Sys :=
      match s1.currentState with
      | St.CRACK =>
        { s1 with currentState := St.NORMAL, cracks := [],
                  destructionLevel := Q.ofInt 0 }
      | St.SHATTER =>
        { s1 with currentState := St.CRACK, particles := [],
                  destructionLevel := CRACK_THRESHOLD.add ⟨1, 10⟩ }
      | St.SILENCE =>
        { s1 with currentState := St.CRACK, particles := [],
                  destructionLevel := CRACK_THRESHOLD.add ⟨1, 10⟩ }
      | St.REBUILD =>
        { s1 with currentState := St.NORMAL, particles := [], cracks := [],
                  destructionLevel := Q.ofInt 0 }
      | St.RECOVERY =>
        { s1 with currentState := St.NORMAL, particles := [], cracks := [],
                  destructionLevel := Q.ofInt 0 }
      | St.NORMAL => s1
    emitTone s2 800 50
  | Btn.longPress =>
    emitTone { s with currentState := St.NORMAL, particles := [], cracks := [],
                      destructionLevel := Q.ofInt 0, lastInteractionTime := now } 1200 200

/-- `autoRecover`: after `AUTO_RECOVER_TIME` of inactivity outside NORMAL,
step the damage down by `0.01`; on reaching `0`, jump to RECOVERY, clear both
stores and chirp; the idle clock is re-armed on every firing. -/
def autoRecover (now : ℕ) (s : Sys) : Sys :=
  if s.currentState ≠ St.NORMAL ∧ AUTO_RECOVER_TIME < now - s.lastInteractionTime then
    let s1 : Sys :=
      if Q.blt (Q.ofInt 0) s.destructionLevel then
        let d := s.destructionLevel.sub ⟨1, 100⟩
        if Q.ble d (Q.ofInt 0) then
          emitTone { s with destructionLevel := Q.ofInt 0, currentState := St.RECOVERY,
                            stateStartTime := now, particles := [], cracks := [] }
            1200 150
        else { s with destructionLevel := d }
      else s
    { s1 with lastInteractionTime := now }
  else s

/-- One iteration of `loop()`: encoder, button, state machine, render,
auto-recover.  The cue list is reset so that `cues` holds exactly the tones
emitted during this tick. -/
def tick (ext : Ext) (delta : ℤ) (btn : Btn) (now : ℕ) (s : Sys) : Sys :=
  let s0 : Sys := { s with cues := [], lastUpdateTime := now }
  autoRecover now
    (renderState ext (updateState ext now (handleButton btn now (updateEncoder delta now s0))))

/-- One tick of input: rotation delta, button event, clock value. -/
structure Input where
  delta : ℤ
  btn : Btn
  now : ℕ

/-- The state after `setup()`. -/
def initSys (t0 : ℕ) (r : Rng) : Sys :=
  { currentState := St.NORMAL, previousState := St.NORMAL,
    encoderValue := 0, lastEncoderValue := 0, encoderDelta := 0,
    rotationSpeed := Q.ofInt 0, destructionLevel := Q.ofInt 0,
    cracks := [], particles := [],
    lastUpdateTime := t0, stateStartTime := t0, lastInteractionTime := t0,
    rng := r, cues := [] }

/-- Run a list of tick inputs from a state. -/
def run (ext : Ext) (s : Sys) : List Input → Sys
  | [] => s
  | i :: l => run ext (tick ext i.delta i.btn i.now s) l

/-- States reachable from `setup()` by any input sequence. -/
inductive Reachable (ext : Ext) : Sys → Prop where
  | init (t0 : ℕ) (r : Rng) : Reachable ext (initSys t0 r)
  | step {s : Sys} (delta : ℤ) (btn : Btn) (now : ℕ) :
      Reachable ext s → Reachable ext (tick ext delta btn now s)


/-! ## Semantics of the exact float embedding -/

theorem Q.val_ofInt (n : ℤ) : (Q.ofInt n).val = (n : ℚ) := by
  simp [Q.ofInt, Q.val]

theorem Q.den_ofInt (n : ℤ) : (Q.ofInt n).den = 1 := rfl

theorem Q.den_add (a b : Q) : (a.add b).den = a.den * b.den := rfl

theorem Q.den_sub (a b : Q) : (a.sub b).den = a.den * b.den := rfl

theorem Q.den_mul (a b : Q) : (a.mul b).den = a.den * b.den := rfl

theorem Q.val_add (a b : Q) (ha : a.den ≠ 0) (hb : b.den ≠ 0) :
    (a.add b).val = a.val + b.val := by
  have ha' : (a.den : ℚ) ≠ 0 := Int.cast_ne_zero.mpr ha
  have hb' : (b.den : ℚ) ≠ 0 := Int.cast_ne_zero.mpr hb
  simp only [Q.add, Q.val]
  push_cast
  field_simp

theorem Q.val_sub (a b : Q) (ha : a.den ≠ 0) (hb : b.den ≠ 0) :
    (a.sub b).val = a.val - b.val := by
  have ha' : (a.den : ℚ) ≠ 0 := Int.cast_ne_zero.mpr ha
  have hb' : (b.den : ℚ) ≠ 0 := Int.cast_ne_zero.mpr hb
  simp only [Q.sub, Q.val]
  push_cast
  field_simp
  ring

theorem Q.val_mul (a b : Q) : (a.mul b).val = a.val * b.val := by
  simp only [Q.mul, Q.val]
  push_cast
  rw [div_mul_div_comm]

theorem Q.blt_iff (a b : Q) (ha : 0 < a.den) (hb : 0 < b.den) :
    Q.blt a b = true ↔ a.val < b.val := by
  have ha' : (0 : ℚ) < (a.den : ℚ) := by exact_mod_cast ha
  have hb' : (0 : ℚ) < (b.den : ℚ) := by exact_mod_cast hb
  simp only [Q.blt, Q.val, decide_eq_true_eq]
  rw [div_lt_div_iff₀ ha' hb']
  exact_mod_cast Iff.rfl

theorem Q.ble_iff (a b : Q) (ha : 0 < a.den) (hb : 0 < b.den) :
    Q.ble a b = true ↔ a.val ≤ b.val := by
  have ha' : (0 : ℚ) < (a.den : ℚ) := by exact_mod_cast ha
  have hb' : (0 : ℚ) < (b.den : ℚ) := by exact_mod_cast hb
  simp only [Q.ble, Q.val, decide_eq_true_eq]
  rw [div_le_div_iff₀ ha' hb']
  exact_mod_cast Iff.rfl

theorem Q.veq_iff (a b : Q) (ha : 0 < a.den) (hb : 0 < b.den) :
    Q.veq a b = true ↔ a.val = b.val := by
  have ha' : (a.den : ℚ) ≠ 0 := ne_of_gt (by exact_mod_cast ha)
  have hb' : (b.den : ℚ) ≠ 0 := ne_of_gt (by exact_mod_cast hb)
  simp only [Q.veq, Q.val, beq_iff_eq]
  rw [div_eq_div_iff ha' hb']
  exact_mod_cast Iff.rfl


/-! ## Field bookkeeping lemmas for the tick components -/

theorem emitTone_destructionLevel (s : Sys) (f d : ℕ) :
    (emitTone s f d).destructionLevel = s.destructionLevel := rfl

theorem updateParticles_destructionLevel (ext : Ext) (s : Sys) :
    (updateParticles ext s).destructionLevel = s.destructionLevel := rfl

theorem generateParticles_destructionLevel (ext : Ext) (s : Sys) :
    (generateParticles ext s).destructionLevel = s.destructionLevel := by
  simp only [generateParticles]

theorem generateCrack_destructionLevel (ext : Ext) (cx cy angle : Q) (gen : ℤ) (s : Sys) :
    (generateCrack ext cx cy angle gen s).destructionLevel = s.destructionLevel := by
  unfold generateCrack
  split <;> rfl

theorem seedLoop_destructionLevel (ext : Ext) (target : ℤ) (fuel : ℕ) (s : Sys) :
    (seedLoop ext target fuel s).destructionLevel = s.destructionLevel := by
  induction fuel generalizing s with
  | zero => rfl
  | succ n ih =>
    simp only [seedLoop]
    split
    · rw [ih, generateCrack_destructionLevel]
    · rfl

theorem branchLoop_destructionLevel (ext : Ext) (l : List Crack) (s : Sys) :
    (branchLoop ext l s).destructionLevel = s.destructionLevel := by
  induction l generalizing s with
  | nil => rfl
  | cons c rest ih =>
    simp only [branchLoop]
    split
    · split
      · rw [ih, generateCrack_destructionLevel]
      · rw [ih]
    · rw [ih]

theorem renderState_destructionLevel (ext : Ext) (s : Sys) :
    (renderState ext s).destructionLevel = s.destructionLevel := by
  unfold renderState
  split
  · unfold renderCrack
    rw [branchLoop_destructionLevel, seedLoop_destructionLevel]
  · rfl
  · rfl


/-! ## Damage invariant (claim C1 machinery) -/

theorem Q.blt_false (a b : Q) (ha : 0 < a.den) (hb : 0 < b.den)
    (h : Q.blt a b = false) : b.val ≤ a.val := by
  by_contra hc
  rw [not_le] at hc
  have := (Q.blt_iff a b ha hb).mpr hc
  rw [h] at this
  exact Bool.false_ne_true this

theorem Q.ble_false (a b : Q) (ha : 0 < a.den) (hb : 0 < b.den)
    (h : Q.ble a b = false) : b.val < a.val := by
  by_contra hc
  rw [not_lt] at hc
  have := (Q.ble_iff a b ha hb).mpr hc
  rw [h] at this
  exact Bool.false_ne_true this

/-- Well-formed damage value: positive stored denominator, value in `[0,1]`. -/
def damOK (q : Q) : Prop := 0 < q.den ∧ 0 ≤ q.val ∧ q.val ≤ 1

theorem damOK_zero : damOK (Q.ofInt 0) := by
  refine ⟨by norm_num [Q.ofInt], ?_, ?_⟩ <;> norm_num [Q.ofInt, Q.val]

theorem constrain01_damOK (x : Q) (hx : 0 < x.den) :
    damOK (constrain x (Q.ofInt 0) (Q.ofInt 1)) := by
  unfold constrain
  have h0 : (0:ℤ) < (Q.ofInt 0).den := by norm_num [Q.ofInt]
  have h1 : (0:ℤ) < (Q.ofInt 1).den := by norm_num [Q.ofInt]
  have v0 : (Q.ofInt 0).val = 0 := by norm_num [Q.ofInt, Q.val]
  have v1 : (Q.ofInt 1).val = 1 := by norm_num [Q.ofInt, Q.val]
  split
  · exact damOK_zero
  · split
    · exact ⟨h1, by rw [v1]; norm_num, by rw [v1]⟩
    · rename_i hlo hhi
      rw [Bool.not_eq_true] at hlo hhi
      have hge := Q.blt_false x (Q.ofInt 0) hx h0 hlo
      have hle := Q.blt_false (Q.ofInt 1) x h1 hx hhi
      rw [v0] at hge
      rw [v1] at hle
      exact ⟨hx, hge, hle⟩

theorem updateEncoder_damOK (delta : ℤ) (now : ℕ) (s : Sys)
    (h : damOK s.destructionLevel) :
    damOK (updateEncoder delta now s).destructionLevel := by
  unfold updateEncoder updateDestruction
  split
  · apply constrain01_damOK
    simp only [Q.den_add, Q.den_mul]
    have h2 : (0:ℤ) < (Q.ofInt delta).den * (⟨3, 1000⟩ : Q).den := by norm_num [Q.ofInt]
    exact mul_pos h.1 h2
  · exact h

theorem updateState_destructionLevel_cases (ext : Ext) (now : ℕ) (s : Sys) :
    (updateState ext now s).destructionLevel = s.destructionLevel ∨
    (updateState ext now s).destructionLevel = Q.ofInt 0 := by
  unfold updateState
  dsimp only
  cases s.currentState <;> dsimp only
  · split <;> simp [emitTone]
  · split
    · left
      simp [emitTone, generateParticles]
    · split <;> simp
  · left
    split <;> split <;> simp [emitTone, updateParticles]
  · split <;> simp [emitTone]
  · left
    split <;> simp [emitTone, updateParticles]
  · split <;> simp

theorem handleButton_destructionLevel_cases (btn : Btn) (now : ℕ) (s : Sys) :
    (handleButton btn now s).destructionLevel = s.destructionLevel ∨
    (handleButton btn now s).destructionLevel = Q.ofInt 0 ∨
    (handleButton btn now s).destructionLevel = CRACK_THRESHOLD.add ⟨1, 10⟩ := by
  cases btn
  · left; rfl
  · unfold handleButton
    cases s.currentState <;> simp [emitTone]
  · right; left; rfl

theorem damOK_quarter : damOK (CRACK_THRESHOLD.add ⟨1, 10⟩) := by
  refine ⟨by norm_num [CRACK_THRESHOLD, Q.add], ?_, ?_⟩ <;>
    norm_num [CRACK_THRESHOLD, Q.add, Q.val]

theorem autoRecover_damOK (now : ℕ) (s : Sys) (h : damOK s.destructionLevel) :
    damOK (autoRecover now s).destructionLevel := by
  unfold autoRecover
  split
  · simp only [emitTone]
    split
    · split
      · exact damOK_zero
      · rename_i hpos hble
        rw [Bool.not_eq_true] at hble
        dsimp only
        have hd : (0:ℤ) < (s.destructionLevel.sub ⟨1, 100⟩).den := by
          simp only [Q.den_sub]
          have h2 : (0:ℤ) < (⟨1, 100⟩ : Q).den := by norm_num
          exact mul_pos h.1 h2
        have h100 : ((⟨1, 100⟩ : Q)).den ≠ 0 := by norm_num
        have hv : (s.destructionLevel.sub ⟨1, 100⟩).val
            = s.destructionLevel.val - (⟨1, 100⟩ : Q).val :=
          Q.val_sub _ _ (ne_of_gt h.1) h100
        have h0den : (0:ℤ) < (Q.ofInt 0).den := by norm_num [Q.ofInt]
        have hgt := Q.ble_false (s.destructionLevel.sub ⟨1, 100⟩) (Q.ofInt 0) hd h0den hble
        have v0 : (Q.ofInt 0).val = 0 := by norm_num [Q.ofInt, Q.val]
        rw [v0] at hgt
        refine ⟨hd, le_of_lt hgt, ?_⟩
        rw [hv]
        have hval : ((⟨1, 100⟩ : Q)).val = 1 / 100 := by norm_num [Q.val]
        rw [hval]
        linarith [h.2.2]
    · exact h
  · exact h

theorem tick_damOK (ext : Ext) (delta : ℤ) (btn : Btn) (now : ℕ) (s : Sys)
    (h : damOK s.destructionLevel) :
    damOK (tick ext delta btn now s).destructionLevel := by
  unfold tick
  apply autoRecover_damOK
  rw [renderState_destructionLevel]
  have h1 : damOK (updateEncoder delta now
      { s with cues := [], lastUpdateTime := now }).destructionLevel :=
    updateEncoder_damOK _ _ _ h
  have h2 : damOK (handleButton btn now (updateEncoder delta now
      { s with cues := [], lastUpdateTime := now })).destructionLevel := by
    rcases handleButton_destructionLevel_cases btn now (updateEncoder delta now
        { s with cues := [], lastUpdateTime := now }) with hc | hc | hc <;> rw [hc]
    · exact h1
    · exact damOK_zero
    · exact damOK_quarter
  rcases updateState_destructionLevel_cases ext now (handleButton btn now
      (updateEncoder delta now { s with cues := [], lastUpdateTime := now })) with hc | hc <;>
    rw [hc]
  · exact h2
  · exact damOK_zero

theorem reachable_damOK (ext : Ext) (s : Sys) (h : Reachable ext s) :
    damOK s.destructionLevel := by
  induction h with
  | init t0 r => exact damOK_zero
  | step delta btn now _ ih => exact tick_damOK _ _ _ _ _ ih

/-! ## Store size invariants (claim C3 machinery) -/

theorem generateCrack_particles (ext : Ext) (cx cy angle : Q) (gen : ℤ) (s : Sys) :
    (generateCrack ext cx cy angle gen s).particles = s.particles := by
  unfold generateCrack
  split <;> rfl

theorem generateCrack_cracks_le (ext : Ext) (cx cy angle : Q) (gen : ℤ) (s : Sys)
    (h : s.cracks.length ≤ MAX_CRACKS) :
    (generateCrack ext cx cy angle gen s).cracks.length ≤ MAX_CRACKS := by
  unfold generateCrack
  split
  · exact h
  · rename_i hlt
    rw [not_le] at hlt
    simp only [List.length_append, List.length_cons, List.length_nil]
    omega

theorem generateCrack_at_cap (ext : Ext) (cx cy angle : Q) (gen : ℤ) (s : Sys)
    (h : MAX_CRACKS ≤ s.cracks.length) :
    generateCrack ext cx cy angle gen s = s := by
  unfold generateCrack
  split
  · rfl
  · omega

theorem seedLoop_particles (ext : Ext) (target : ℤ) (fuel : ℕ) (s : Sys) :
    (seedLoop ext target fuel s).particles = s.particles := by
  induction fuel generalizing s with
  | zero => rfl
  | succ n ih =>
    simp only [seedLoop]
    split
    · rw [ih, generateCrack_particles]
    · rfl

theorem seedLoop_cracks_le (ext : Ext) (target : ℤ) (fuel : ℕ) (s : Sys)
    (h : s.cracks.length ≤ MAX_CRACKS) :
    (seedLoop ext target fuel s).cracks.length ≤ MAX_CRACKS := by
  induction fuel generalizing s with
  | zero => exact h
  | succ n ih =>
    simp only [seedLoop]
    split
    · exact ih _ (generateCrack_cracks_le _ _ _ _ _ _ h)
    · exact h

theorem branchLoop_particles (ext : Ext) (l : List Crack) (s : Sys) :
    (branchLoop ext l s).particles = s.particles := by
  induction l generalizing s with
  | nil => rfl
  | cons c rest ih =>
    simp only [branchLoop]
    split
    · split
      · rw [ih, generateCrack_particles]
      · rw [ih]
    · rw [ih]

theorem branchLoop_cracks_le (ext : Ext) (l : List Crack) (s : Sys)
    (h : s.cracks.length ≤ MAX_CRACKS) :
    (branchLoop ext l s).cracks.length ≤ MAX_CRACKS := by
  induction l generalizing s with
  | nil => exact h
  | cons c rest ih =>
    simp only [branchLoop]
    split
    · split
      · exact ih _ (generateCrack_cracks_le _ _ _ _ _ _ h)
      · exact ih _ h
    · exact ih _ h

theorem renderState_particles (ext : Ext) (s : Sys) :
    (renderState ext s).particles = s.particles := by
  unfold renderState
  split
  · unfold renderCrack
    rw [branchLoop_particles, seedLoop_particles]
  · rfl
  · rfl

theorem renderState_cracks_le (ext : Ext) (s : Sys)
    (h : s.cracks.length ≤ MAX_CRACKS) :
    (renderState ext s).cracks.length ≤ MAX_CRACKS := by
  unfold renderState
  split
  · unfold renderCrack
    exact branchLoop_cracks_le _ _ _ (seedLoop_cracks_le _ _ _ _ h)
  · simpa [renderRebuild] using h
  · exact h

theorem spawnOne_length (ext : Ext) (pr : List Particle × Rng) :
    (spawnOne ext pr).1.length = pr.1.length + 1 := by
  simp [spawnOne]

theorem spawnLoop_length (ext : Ext) (n : ℕ) (pr : List Particle × Rng) :
    (spawnLoop ext n pr).1.length = pr.1.length + n := by
  induction n generalizing pr with
  | zero => rfl
  | succ m ih =>
    simp only [spawnLoop]
    rw [ih, spawnOne_length]
    omega

theorem generateParticles_length (ext : Ext) (s : Sys) :
    (generateParticles ext s).particles.length = MAX_PARTICLES := by
  simp only [generateParticles]
  rw [spawnLoop_length]
  rfl

theorem updateParticles_length (ext : Ext) (s : Sys) :
    (updateParticles ext s).particles.length = s.particles.length := by
  simp [updateParticles]

theorem updateState_cracks_cases (ext : Ext) (now : ℕ) (s : Sys) :
    (updateState ext now s).cracks = s.cracks ∨ (updateState ext now s).cracks = [] := by
  unfold updateState
  dsimp only
  cases s.currentState <;> dsimp only
  · split <;> simp [emitTone]
  · split
    · left
      simp [emitTone, generateParticles]
    · split <;> simp
  · left
    split <;> split <;> simp [emitTone, updateParticles]
  · split <;> simp [emitTone]
  · left
    split <;> simp [emitTone, updateParticles]
  · split <;> simp

theorem updateState_particles_length_cases (ext : Ext) (now : ℕ) (s : Sys) :
    (updateState ext now s).particles.length = s.particles.length ∨
    (updateState ext now s).particles.length = 0 ∨
    (updateState ext now s).particles.length = MAX_PARTICLES := by
  unfold updateState
  dsimp only
  cases s.currentState <;> dsimp only
  · split <;> simp [emitTone]
  · split
    · right; right
      simp only [emitTone]
      exact generateParticles_length ext _
    · split <;> simp
  · left
    split <;> split <;> simp [emitTone, updateParticles]
  · split <;> simp [emitTone]
  · left
    split <;> simp [emitTone, updateParticles]
  · split <;> simp

theorem handleButton_cracks_cases (btn : Btn) (now : ℕ) (s : Sys) :
    (handleButton btn now s).cracks = s.cracks ∨ (handleButton btn now s).cracks = [] := by
  cases btn
  · left; rfl
  · unfold handleButton
    cases s.currentState <;> simp [emitTone]
  · right; rfl

theorem handleButton_particles_cases (btn : Btn) (now : ℕ) (s : Sys) :
    (handleButton btn now s).particles = s.particles ∨
    (handleButton btn now s).particles = [] := by
  cases btn
  · left; rfl
  · unfold handleButton
    cases s.currentState <;> simp [emitTone]
  · right; rfl

theorem autoRecover_cracks_cases (now : ℕ) (s : Sys) :
    (autoRecover now s).cracks = s.cracks ∨ (autoRecover now s).cracks = [] := by
  unfold autoRecover
  split
  · dsimp only
    split
    · split <;> simp [emitTone]
    · simp
  · left; rfl

theorem autoRecover_particles_cases (now : ℕ) (s : Sys) :
    (autoRecover now s).particles = s.particles ∨ (autoRecover now s).particles = [] := by
  unfold autoRecover
  split
  · dsimp only
    split
    · split <;> simp [emitTone]
    · simp
  · left; rfl

theorem updateEncoder_cracks (delta : ℤ) (now : ℕ) (s : Sys) :
    (updateEncoder delta now s).cracks = s.cracks := by
  unfold updateEncoder updateDestruction
  split <;> rfl

theorem updateEncoder_particles (delta : ℤ) (now : ℕ) (s : Sys) :
    (updateEncoder delta now s).particles = s.particles := by
  unfold updateEncoder updateDestruction
  split <;> rfl

/-- Both stores stay within their capacities. -/
def storeOK (s : Sys) : Prop :=
  s.cracks.length ≤ MAX_CRACKS ∧ s.particles.length ≤ MAX_PARTICLES

theorem tick_storeOK (ext : Ext) (delta : ℤ) (btn : Btn) (now : ℕ) (s : Sys)
    (h : storeOK s) : storeOK (tick ext delta btn now s) := by
  unfold tick
  set sE := updateEncoder delta now { s with cues := [], lastUpdateTime := now } with hE
  have hEc : sE.cracks = s.cracks := updateEncoder_cracks _ _ _
  have hEp : sE.particles = s.particles := updateEncoder_particles _ _ _
  set sB := handleButton btn now sE with hB
  have hBc : sB.cracks.length ≤ MAX_CRACKS := by
    rcases handleButton_cracks_cases btn now sE with hc | hc <;> rw [hB, hc]
    · rw [hEc]; exact h.1
    · simp
  have hBp : sB.particles.length ≤ MAX_PARTICLES := by
    rcases handleButton_particles_cases btn now sE with hc | hc <;> rw [hB, hc]
    · rw [hEp]; exact h.2
    · simp
  set sU := updateState ext now sB with hU
  have hUc : sU.cracks.length ≤ MAX_CRACKS := by
    rcases updateState_cracks_cases ext now sB with hc | hc <;> rw [hU, hc]
    · exact hBc
    · simp
  have hUp : sU.particles.length ≤ MAX_PARTICLES := by
    rcases updateState_particles_length_cases ext now sB with hc | hc | hc <;> rw [hU, hc]
    · exact hBp
    · simp
  set sR := renderState ext sU with hR
  have hRc : sR.cracks.length ≤ MAX_CRACKS := by
    rw [hR]; exact renderState_cracks_le _ _ hUc
  have hRp : sR.particles.length ≤ MAX_PARTICLES := by
    rw [hR, renderState_particles]; exact hUp
  constructor
  · rcases autoRecover_cracks_cases now sR with hc | hc <;> rw [hc]
    · exact hRc
    · simp
  · rcases autoRecover_particles_cases now sR with hc | hc <;> rw [hc]
    · exact hRp
    · simp

theorem reachable_storeOK (ext : Ext) (s : Sys) (h : Reachable ext s) : storeOK s := by
  induction h with
  | init t0 r => exact ⟨by simp [initSys], by simp [initSys]⟩
  | step delta btn now _ ih => exact tick_storeOK _ _ _ _ _ ih

/-! ## Shared concrete objects for witnesses and counterexample runs -/

/-- Simple external-math stand-in (cosine 1, sine 0). -/
def extN : Ext :=
  { cosE := fun _ => Q.ofInt 1, sinE := fun _ => Q.ofInt 0,
    sqrtE := fun _ => Q.ofInt 0, degToRad := Q.ofInt 0 }

/-- External-math stand-in that throws spawned particles far off screen. -/
def extF : Ext :=
  { cosE := fun _ => Q.ofInt 1000, sinE := fun _ => Q.ofInt 0,
    sqrtE := fun _ => Q.ofInt 0, degToRad := Q.ofInt 0 }

/-- Empty random stream (every draw returns the low bound). -/
def rng0 : Rng := ⟨[]⟩

/-- The boot state with clock 0 and the empty stream. -/
def sInit : Sys := initSys 0 rng0

/-- A default crack literal, used to build a store at capacity. -/
def cDefault : Crack :=
  { startX := Q.ofInt 0, startY := Q.ofInt 0, endX := Q.ofInt 0, endY := Q.ofInt 0,
    angle := Q.ofInt 0, length := Q.ofInt 0, generation := 0,
    alpha := Q.ofInt 1, active := true }

/-- A state whose crack store is exactly at capacity. -/
def sFullCracks : Sys := { sInit with cracks := List.replicate MAX_CRACKS cDefault }

/-! ## Claim C1 -/

/-- C1: for every reachable state the damage scalar `destructionLevel` lies in
`[0, 1]`; every mutating operation (rotation update, auto-recover decrement,
button step-back/reset, recovery completion) leaves it clamped inside the
interval, which the `Reachable` induction checks operation by operation. -/
theorem claim_C1 (ext : Ext) (s : Sys) (h : Reachable ext s) :
    0 ≤ s.destructionLevel.val ∧ s.destructionLevel.val ≤ 1 :=
  ⟨(reachable_damOK ext s h).2.1, (reachable_damOK ext s h).2.2⟩

theorem claim_C1_witness :
    0 ≤ (tick extN 218 Btn.noPress 16 sInit).destructionLevel.val ∧
    (tick extN 218 Btn.noPress 16 sInit).destructionLevel.val ≤ 1 :=
  claim_C1 extN (tick extN 218 Btn.noPress 16 sInit)
    (Reachable.step 218 Btn.noPress 16 (Reachable.init 0 rng0))

/-! ## Claim C3 -/

/-- C3: on every reachable state the crack store holds at most `MAX_CRACKS`
elements and the particle store at most `MAX_PARTICLES`; and an insertion
attempted when the crack store is at capacity (`generateCrack`, the single
per-element guarded insertion of the source) is a silent no-op that leaves the
whole system state unchanged. -/
theorem claim_C3 :
    (∀ (ext : Ext) (s : Sys), Reachable ext s →
      s.cracks.length ≤ MAX_CRACKS ∧ s.particles.length ≤ MAX_PARTICLES) ∧
    (∀ (ext : Ext) (cx cy angle : Q) (gen : ℤ) (s : Sys),
      MAX_CRACKS ≤ s.cracks.length → generateCrack ext cx cy angle gen s = s) :=
  ⟨fun ext s h => reachable_storeOK ext s h,
   fun ext cx cy angle gen s h => generateCrack_at_cap ext cx cy angle gen s h⟩

theorem claim_C3_witness :
    ((tick extN 218 Btn.noPress 16 sInit).cracks.length ≤ MAX_CRACKS ∧
      (tick extN 218 Btn.noPress 16 sInit).particles.length ≤ MAX_PARTICLES) ∧
    generateCrack extN (Q.ofInt 0) (Q.ofInt 0) (Q.ofInt 0) 0 sFullCracks = sFullCracks :=
  ⟨claim_C3.1 extN (tick extN 218 Btn.noPress 16 sInit)
      (Reachable.step 218 Btn.noPress 16 (Reachable.init 0 rng0)),
   claim_C3.2 extN (Q.ofInt 0) (Q.ofInt 0) (Q.ofInt 0) 0 sFullCracks
      (by simp [sFullCracks, sInit, initSys])⟩

/-! ## Value-level characterisation of the rotation update (claims C10, C7, C2) -/

theorem constrain01_val (x : Q) (hx : 0 < x.den) :
    (constrain x (Q.ofInt 0) (Q.ofInt 1)).val = max 0 (min 1 x.val) := by
  unfold constrain
  have h0 : (0:ℤ) < (Q.ofInt 0).den := by norm_num [Q.ofInt]
  have h1 : (0:ℤ) < (Q.ofInt 1).den := by norm_num [Q.ofInt]
  have v0 : (Q.ofInt 0).val = 0 := by norm_num [Q.ofInt, Q.val]
  have v1 : (Q.ofInt 1).val = 1 := by norm_num [Q.ofInt, Q.val]
  split
  · rename_i hlt
    have hv := (Q.blt_iff x (Q.ofInt 0) hx h0).mp hlt
    rw [v0] at hv
    rw [v0, min_eq_right (le_of_lt (lt_of_lt_of_le hv (by norm_num))),
      max_eq_left (le_of_lt hv)]
  · rename_i hge
    rw [Bool.not_eq_true] at hge
    have hge2 := Q.blt_false x (Q.ofInt 0) hx h0 hge
    rw [v0] at hge2
    split
    · rename_i hhi
      have hv := (Q.blt_iff (Q.ofInt 1) x h1 hx).mp hhi
      rw [v1] at hv
      rw [v1, min_eq_left (le_of_lt hv), max_eq_right (by norm_num)]
    · rename_i hle
      rw [Bool.not_eq_true] at hle
      have hle2 := Q.blt_false (Q.ofInt 1) x h1 hx hle
      rw [v1] at hle2
      rw [min_eq_right hle2, max_eq_right hge2]

theorem rotStep_den (s : Sys) (delta : ℤ) (h : 0 < s.destructionLevel.den) :
    0 < (s.destructionLevel.add ((Q.ofInt delta).mul ⟨3, 1000⟩)).den := by
  simp only [Q.den_add, Q.den_mul]
  have h2 : (0:ℤ) < (Q.ofInt delta).den * (⟨3, 1000⟩ : Q).den := by norm_num [Q.ofInt]
  exact mul_pos h h2

theorem rotStep_val (s : Sys) (delta : ℤ) (h : 0 < s.destructionLevel.den) :
    (s.destructionLevel.add ((Q.ofInt delta).mul ⟨3, 1000⟩)).val
      = s.destructionLevel.val + (delta : ℚ) * (3 / 1000) := by
  have hm : ((Q.ofInt delta).mul ⟨3, 1000⟩).den ≠ 0 := by norm_num [Q.ofInt, Q.den_mul]
  rw [Q.val_add _ _ (ne_of_gt h) hm, Q.val_mul]
  have hv1 : (Q.ofInt delta).val = (delta : ℚ) := Q.val_ofInt delta
  have hv2 : ((⟨3, 1000⟩ : Q)).val = 3 / 1000 := by norm_num [Q.val]
  rw [hv1, hv2]

theorem updateEncoder_destructionLevel_of_ne (delta : ℤ) (now : ℕ) (s : Sys)
    (h : delta ≠ 0) :
    (updateEncoder delta now s).destructionLevel
      = constrain (s.destructionLevel.add ((Q.ofInt delta).mul ⟨3, 1000⟩))
          (Q.ofInt 0) (Q.ofInt 1) := by
  unfold updateEncoder updateDestruction
  rw [if_pos h]

theorem updateEncoder_destructionLevel_val (delta : ℤ) (now : ℕ) (s : Sys)
    (h : delta ≠ 0) (hden : 0 < s.destructionLevel.den) :
    (updateEncoder delta now s).destructionLevel.val
      = max 0 (min 1 (s.destructionLevel.val + (delta : ℚ) * (3 / 1000))) := by
  rw [updateEncoder_destructionLevel_of_ne delta now s h,
    constrain01_val _ (rotStep_den s delta hden), rotStep_val s delta hden]

theorem updateEncoder_lastInteractionTime_of_ne (delta : ℤ) (now : ℕ) (s : Sys)
    (h : delta ≠ 0) :
    (updateEncoder delta now s).lastInteractionTime = now := by
  unfold updateEncoder updateDestruction
  rw [if_pos h]

theorem updateEncoder_currentState (delta : ℤ) (now : ℕ) (s : Sys) :
    (updateEncoder delta now s).currentState = s.currentState := by
  unfold updateEncoder updateDestruction
  split <;> rfl

theorem updateEncoder_stateStartTime (delta : ℤ) (now : ℕ) (s : Sys) :
    (updateEncoder delta now s).stateStartTime = s.stateStartTime := by
  unfold updateEncoder updateDestruction
  split <;> rfl

/-! ## Untouched-field lemmas -/

/-- Everything except the crack store and the random stream. -/
def view (s : Sys) :=
  (s.currentState, s.previousState, s.encoderValue, s.lastEncoderValue,
   s.encoderDelta, s.rotationSpeed, s.destructionLevel, s.particles,
   s.lastUpdateTime, s.stateStartTime, s.lastInteractionTime, s.cues)

theorem generateCrack_view (ext : Ext) (cx cy angle : Q) (gen : ℤ) (s : Sys) :
    view (generateCrack ext cx cy angle gen s) = view s := by
  unfold generateCrack
  split <;> rfl

theorem seedLoop_view (ext : Ext) (target : ℤ) (fuel : ℕ) (s : Sys) :
    view (seedLoop ext target fuel s) = view s := by
  induction fuel generalizing s with
  | zero => rfl
  | succ n ih =>
    simp only [seedLoop]
    split
    · rw [ih, generateCrack_view]
      rfl
    · rfl

theorem branchLoop_view (ext : Ext) (l : List Crack) (s : Sys) :
    view (branchLoop ext l s) = view s := by
  induction l generalizing s with
  | nil => rfl
  | cons c rest ih =>
    simp only [branchLoop]
    split
    · split
      · rw [ih, generateCrack_view]
        rfl
      · rw [ih]
        rfl
    · rw [ih]

theorem renderState_view (ext : Ext) (s : Sys) : view (renderState ext s) = view s := by
  unfold renderState
  split
  · unfold renderCrack
    rw [branchLoop_view, seedLoop_view]
  · rfl
  · rfl

theorem renderState_currentState (ext : Ext) (s : Sys) :
    (renderState ext s).currentState = s.currentState := by
  have hv := renderState_view ext s
  simp only [view, Prod.mk.injEq] at hv
  exact hv.1

theorem renderState_lastInteractionTime (ext : Ext) (s : Sys) :
    (renderState ext s).lastInteractionTime = s.lastInteractionTime := by
  have hv := renderState_view ext s
  simp only [view, Prod.mk.injEq] at hv
  exact hv.2.2.2.2.2.2.2.2.2.2.1

theorem renderState_stateStartTime (ext : Ext) (s : Sys) :
    (renderState ext s).stateStartTime = s.stateStartTime := by
  have hv := renderState_view ext s
  simp only [view, Prod.mk.injEq] at hv
  exact hv.2.2.2.2.2.2.2.2.2.1

theorem renderState_cues (ext : Ext) (s : Sys) :
    (renderState ext s).cues = s.cues := by
  have hv := renderState_view ext s
  simp only [view, Prod.mk.injEq] at hv
  exact hv.2.2.2.2.2.2.2.2.2.2.2

theorem handleButton_noPress (now : ℕ) (s : Sys) :
    handleButton Btn.noPress now s = s := rfl

theorem updateState_lastInteractionTime (ext : Ext) (now : ℕ) (s : Sys) :
    (updateState ext now s).lastInteractionTime = s.lastInteractionTime := by
  unfold updateState
  dsimp only
  cases s.currentState <;> dsimp only <;> (repeat' split) <;>
    simp [emitTone, generateParticles, updateParticles]

theorem updateState_destructionLevel_of_ne (ext : Ext) (now : ℕ) (s : Sys)
    (h : s.currentState ≠ St.RECOVERY) :
    (updateState ext now s).destructionLevel = s.destructionLevel := by
  unfold updateState
  dsimp only
  cases hc : s.currentState <;> dsimp only <;> (repeat' split) <;>
    first
    | exact absurd hc h
    | rfl

theorem updateState_destructionLevel_of_RECOVERY_early (ext : Ext) (now : ℕ) (s : Sys)
    (h : s.currentState = St.RECOVERY) (hd : ¬ 800 < now - s.stateStartTime) :
    (updateState ext now s).destructionLevel = s.destructionLevel := by
  unfold updateState
  dsimp only
  rw [h]
  dsimp only
  rw [if_neg hd]

theorem autoRecover_quiet (now : ℕ) (s : Sys)
    (h : ¬ (s.currentState ≠ St.NORMAL ∧ AUTO_RECOVER_TIME < now - s.lastInteractionTime)) :
    autoRecover now s = s := by
  unfold autoRecover
  rw [if_neg h]

/-! ## Claim C10 -/

theorem tick_eq (ext : Ext) (delta : ℤ) (btn : Btn) (now : ℕ) (s : Sys) :
    tick ext delta btn now s
      = autoRecover now (renderState ext (updateState ext now
          (handleButton btn now (updateEncoder delta now
            { s with cues := [], lastUpdateTime := now })))) := rfl

/-- C10: processing a negative rotation delta decreases the damage by
`delta * 0.003`, clamped at `0`, and this holds identically in every state —
the rotation update (`updateEncoder`/`updateDestruction`) never reads the
current category, so negative-rotation recovery is unconditional and ungated. -/
theorem claim_C10 (delta : ℤ) (now : ℕ) (s : Sys)
    (hneg : delta < 0) (hdam : damOK s.destructionLevel) :
    ((updateEncoder delta now s).destructionLevel.val
        = max 0 (s.destructionLevel.val + (delta : ℚ) * (3 / 1000))) ∧
    (∀ c : St, (updateEncoder delta now { s with currentState := c }).destructionLevel
        = (updateEncoder delta now s).destructionLevel) := by
  have hne : delta ≠ 0 := ne_of_lt hneg
  constructor
  · rw [updateEncoder_destructionLevel_val delta now s hne hdam.1]
    have hstep : s.destructionLevel.val + (delta : ℚ) * (3 / 1000) ≤ 1 := by
      have hlt : (delta : ℚ) * (3 / 1000) < 0 := by
        apply mul_neg_of_neg_of_pos
        · exact_mod_cast hneg
        · norm_num
      linarith [hdam.2.2]
    rw [min_eq_right hstep]
  · intro c
    rw [updateEncoder_destructionLevel_of_ne delta now _ hne,
      updateEncoder_destructionLevel_of_ne delta now s hne]

theorem claim_C10_witness :
    (((updateEncoder (-5) 16 sInit).destructionLevel.val
        = max 0 (sInit.destructionLevel.val + ((-5 : ℤ) : ℚ) * (3 / 1000))) ∧
    (∀ c : St, (updateEncoder (-5) 16 { sInit with currentState := c }).destructionLevel
        = (updateEncoder (-5) 16 sInit).destructionLevel)) :=
  claim_C10 (-5) 16 sInit (by norm_num)
    ⟨by norm_num [sInit, initSys, Q.ofInt],
     by norm_num [sInit, initSys, Q.ofInt, Q.val],
     by norm_num [sInit, initSys, Q.ofInt, Q.val]⟩

/-! ## Counterexample run: NORMAL, CRACK, SHATTER, REBUILD -/

/-- One tick of `+218` from boot: damage `0.654`, category CRACK. -/
def sCrack654 : Sys := tick extF 218 Btn.noPress 16 sInit

/-- A zero tick: `0.654 > SHATTER_THRESHOLD`, so CRACK moves to SHATTER and
the 150-particle burst spawns. -/
def sShat654 : Sys := tick extF 0 Btn.noPress 32 sCrack654

/-- A `-52` tick: damage drops to `0.498` and, since `-52 < -2`, SHATTER
moves to REBUILD. -/
def sRebuild498 : Sys := tick extF (-52) Btn.noPress 48 sShat654

theorem sRebuild498_reachable : Reachable extF sRebuild498 :=
  Reachable.step (-52) Btn.noPress 48
    (Reachable.step 0 Btn.noPress 32
      (Reachable.step 218 Btn.noPress 16 (Reachable.init 0 rng0)))

set_option maxRecDepth 500000 in
theorem sRebuild498_state : sRebuild498.currentState = St.REBUILD := by decide

set_option maxRecDepth 500000 in
theorem sRebuild498_damage : sRebuild498.destructionLevel = ⟨498000, 1000000⟩ := by decide

/-! ## Claim C7 -/

set_option maxRecDepth 500000 in
/-- C7 counterexample: `sRebuild498` is a reachable REBUILD state with damage
`0.498`, and a tick with positive rotation delta `+100` raises the damage to
`0.798` — forward (damage-increasing) rotation is not ignored while
Rebuilding. -/
theorem claim_C7_counterexample :
    Reachable extF sRebuild498 ∧
    sRebuild498.currentState = St.REBUILD ∧
    sRebuild498.destructionLevel.val
      < (tick extF 100 Btn.noPress 64 sRebuild498).destructionLevel.val := by
  refine ⟨sRebuild498_reachable, sRebuild498_state, ?_⟩
  have h2 : (tick extF 100 Btn.noPress 64 sRebuild498).destructionLevel
      = ⟨798000000, 1000000000⟩ := by decide
  rw [sRebuild498_damage, h2]
  norm_num [Q.val]

/-- C7 amended: rotation input is processed identically in REBUILD and
RECOVERY (before the 800 ms recovery dwell expires): a positive delta
increases the damage by `delta * 0.003`, clamped above at `1`, exactly as in
every other state; the spec's "forward input is ignored" gate does not exist
in the code. -/
theorem claim_C7_amended (ext : Ext) (delta : ℤ) (now : ℕ) (s : Sys)
    (hpos : 0 < delta)
    (hst : s.currentState = St.REBUILD ∨
      (s.currentState = St.RECOVERY ∧ ¬ 800 < now - s.stateStartTime))
    (hdam : damOK s.destructionLevel) :
    (tick ext delta Btn.noPress now s).destructionLevel.val
      = min 1 (s.destructionLevel.val + (delta : ℚ) * (3 / 1000)) := by
  have hne : delta ≠ 0 := ne_of_gt hpos
  set s0 : Sys := { s with cues := [], lastUpdateTime := now } with hs0
  rw [tick_eq, handleButton_noPress]
  set sE : Sys := updateEncoder delta now s0 with hsE
  have hE_state : sE.currentState = s.currentState := by
    rw [hsE, updateEncoder_currentState]
  have hE_sst : sE.stateStartTime = s.stateStartTime := by
    rw [hsE, updateEncoder_stateStartTime]
  have hE_lit : sE.lastInteractionTime = now := by
    rw [hsE, updateEncoder_lastInteractionTime_of_ne _ _ _ hne]
  have hE_val : sE.destructionLevel.val
      = min 1 (s.destructionLevel.val + (delta : ℚ) * (3 / 1000)) := by
    rw [hsE, updateEncoder_destructionLevel_val delta now s0 hne hdam.1]
    have hx : (0:ℚ) ≤ min 1 (s.destructionLevel.val + (delta : ℚ) * (3 / 1000)) := by
      apply le_min (by norm_num)
      have hd : (0:ℚ) < (delta : ℚ) * (3 / 1000) := by
        apply mul_pos
        · exact_mod_cast hpos
        · norm_num
      linarith [hdam.2.1]
    rw [max_eq_right hx]
  have hU_val : (updateState ext now sE).destructionLevel = sE.destructionLevel := by
    rcases hst with hr | ⟨hr, hdw⟩
    · apply updateState_destructionLevel_of_ne
      rw [hE_state, hr]
      intro hcon
      exact St.noConfusion hcon
    · apply updateState_destructionLevel_of_RECOVERY_early
      · rw [hE_state, hr]
      · rw [hE_sst]
        exact hdw
  have hquiet : autoRecover now (renderState ext (updateState ext now sE))
      = renderState ext (updateState ext now sE) := by
    apply autoRecover_quiet
    rintro ⟨-, habs⟩
    rw [renderState_lastInteractionTime, updateState_lastInteractionTime, hE_lit] at habs
    omega
  rw [hquiet, renderState_destructionLevel, hU_val, hE_val]

set_option maxRecDepth 500000 in
theorem claim_C7_amended_witness :
    (tick extF 100 Btn.noPress 64 sRebuild498).destructionLevel.val
      = min 1 (sRebuild498.destructionLevel.val + ((100 : ℤ) : ℚ) * (3 / 1000)) :=
  claim_C7_amended extF 100 64 sRebuild498 (by norm_num)
    (Or.inl sRebuild498_state)
    ⟨by rw [sRebuild498_damage]; norm_num, by rw [sRebuild498_damage]; norm_num [Q.val],
     by rw [sRebuild498_damage]; norm_num [Q.val]⟩

/-! ## Claim C4 -/

set_option maxRecDepth 500000 in
/-- C4 counterexample: `sRebuild498` is a reachable REBUILD state whose damage
`0.498` is below `0.5`, yet a further tick keeps the category REBUILD and
leaves the damage unchanged — REBUILD neither decrements the damage per tick
nor hands over to RECOVERY at damage `≤ 0.5`. -/
theorem claim_C4_counterexample :
    Reachable extF sRebuild498 ∧
    sRebuild498.currentState = St.REBUILD ∧
    sRebuild498.destructionLevel.val ≤ 1 / 2 ∧
    (tick extF 0 Btn.noPress 64 sRebuild498).currentState = St.REBUILD ∧
    (tick extF 0 Btn.noPress 64 sRebuild498).destructionLevel
      = sRebuild498.destructionLevel := by
  refine ⟨sRebuild498_reachable, sRebuild498_state, ?_, by decide, ?_⟩
  · rw [sRebuild498_damage]
    norm_num [Q.val]
  · have h4 : (tick extF 0 Btn.noPress 64 sRebuild498).destructionLevel
        = ⟨498000, 1000000⟩ := by decide
    rw [h4, sRebuild498_damage]

/-- C4 amended: the code's recovery path is driven differently from the spec:
`updateState` never decrements the damage itself; REBUILD switches to RECOVERY
exactly when the damage is below `0.05` (not `0.5`), and RECOVERY switches to
NORMAL exactly when more than `800` ms have elapsed in the state (not at
damage `≤ 0`), at which point the damage is set to `0`, both stores are
cleared and `stateStartTime` is reset. -/
theorem claim_C4_amended (ext : Ext) (now : ℕ) (s : Sys)
    (hdam : damOK s.destructionLevel) :
    (s.currentState = St.REBUILD →
      (updateState ext now s).destructionLevel = s.destructionLevel ∧
      (updateState ext now s).currentState
        = (if s.destructionLevel.val < 5 / 100 then St.RECOVERY else St.REBUILD)) ∧
    (s.currentState = St.RECOVERY →
      if 800 < now - s.stateStartTime then
        (updateState ext now s).currentState = St.NORMAL ∧
        (updateState ext now s).destructionLevel = Q.ofInt 0 ∧
        (updateState ext now s).cracks = [] ∧
        (updateState ext now s).particles = [] ∧
        (updateState ext now s).stateStartTime = now
      else updateState ext now s = { s with previousState := St.RECOVERY }) := by
  have hden : (0:ℤ) < ((⟨5, 100⟩ : Q)).den := by norm_num
  have hval : ((⟨5, 100⟩ : Q)).val = 5 / 100 := by norm_num [Q.val]
  constructor
  · intro hr
    unfold updateState
    dsimp only
    rw [hr]
    dsimp only
    simp only [updateParticles]
    constructor
    · split <;> simp [emitTone]
    · split
      · rename_i hb
        have hv := (Q.blt_iff s.destructionLevel ⟨5, 100⟩ hdam.1 hden).mp hb
        rw [hval] at hv
        rw [if_pos hv]
        simp [emitTone]
      · rename_i hb
        rw [Bool.not_eq_true] at hb
        have hv := Q.blt_false s.destructionLevel ⟨5, 100⟩ hdam.1 hden hb
        rw [hval] at hv
        rw [if_neg (not_lt.mpr hv)]
  · intro hr
    unfold updateState
    dsimp only
    rw [hr]
    dsimp only
    split
    · exact ⟨rfl, rfl, rfl, rfl, rfl⟩
    · rfl

set_option maxRecDepth 500000 in
theorem claim_C4_amended_witness :
    (updateState extF 64 sRebuild498).destructionLevel = sRebuild498.destructionLevel ∧
    (updateState extF 64 sRebuild498).currentState
      = (if sRebuild498.destructionLevel.val < 5 / 100 then St.RECOVERY else St.REBUILD) :=
  (claim_C4_amended extF 64 sRebuild498
    ⟨by rw [sRebuild498_damage]; norm_num,
     by rw [sRebuild498_damage]; norm_num [Q.val],
     by rw [sRebuild498_damage]; norm_num [Q.val]⟩).1 sRebuild498_state

/-! ## Claim C2 -/

/-- One `+216` tick from boot: damage `0.648`, category CRACK. -/
def sCrack648 : Sys := tick extF 216 Btn.noPress 16 sInit

/-- A `-2` tick from the SHATTER state: damage `0.648`, category SHATTER
(`-2` is not below the `-2` rebuild trigger, and the rotation refreshes the
idle clock, so SHATTER is kept). -/
def sShat648 : Sys := tick extF (-2) Btn.noPress 48 sShat654

theorem sCrack648_reachable : Reachable extF sCrack648 :=
  Reachable.step 216 Btn.noPress 16 (Reachable.init 0 rng0)

theorem sShat648_reachable : Reachable extF sShat648 :=
  Reachable.step (-2) Btn.noPress 48
    (Reachable.step 0 Btn.noPress 32
      (Reachable.step 218 Btn.noPress 16 (Reachable.init 0 rng0)))

set_option maxRecDepth 500000 in
theorem sCrack648_facts :
    sCrack648.currentState = St.CRACK ∧
    sCrack648.destructionLevel = ⟨648, 1000⟩ := by decide

set_option maxRecDepth 500000 in
theorem sShat648_facts :
    sShat648.currentState = St.SHATTER ∧
    sShat648.destructionLevel = ⟨648000, 1000000⟩ := by decide

set_option maxRecDepth 500000 in
/-- C2 counterexample: outside Rebuilding/Recovering the category is not a
function of the damage at all, let alone the spec's eight-band table: two
reachable states with equal damage `0.648` carry categories CRACK and
SHATTER.  (The code also has no Tiny/Small/Medium/Large/HeavyShatter bands
anywhere.) -/
theorem claim_C2_counterexample :
    ¬ (∀ s1 s2 : Sys, Reachable extF s1 → Reachable extF s2 →
        s1.currentState ≠ St.REBUILD → s1.currentState ≠ St.RECOVERY →
        s2.currentState ≠ St.REBUILD → s2.currentState ≠ St.RECOVERY →
        s1.destructionLevel.val = s2.destructionLevel.val →
        s1.currentState = s2.currentState) := by
  intro hcl
  have hA := sCrack648_facts
  have hB := sShat648_facts
  have heq : sCrack648.destructionLevel.val = sShat648.destructionLevel.val := by
    rw [hA.2, hB.2]
    norm_num [Q.val]
  have h := hcl sCrack648 sShat648 sCrack648_reachable sShat648_reachable
    (by rw [hA.1]; intro hx; exact St.noConfusion hx)
    (by rw [hA.1]; intro hx; exact St.noConfusion hx)
    (by rw [hB.1]; intro hx; exact St.noConfusion hx)
    (by rw [hB.1]; intro hx; exact St.noConfusion hx)
    heq
  rw [hA.1, hB.1] at h
  exact St.noConfusion h

/-- C2 amended: the code's classifier uses only the two thresholds `0.15` and
`0.65`, with strict comparisons and hysteresis: from NORMAL a tick moves to
CRACK exactly when `damage > 0.15`; from CRACK it moves to SHATTER exactly
when `damage > 0.65`, back to NORMAL exactly when `damage < 0.15`, and stays
put otherwise — a boundary value keeps the current category rather than
taking the higher one, and SHATTER/SILENCE/REBUILD/RECOVERY are left by
events (reverse rotation, idle, timers), not by threshold re-classification. -/
theorem claim_C2_amended (ext : Ext) (now : ℕ) (s : Sys)
    (hdam : damOK s.destructionLevel) :
    (s.currentState = St.NORMAL →
      (updateState ext now s).currentState
        = (if 15 / 100 < s.destructionLevel.val then St.CRACK else St.NORMAL)) ∧
    (s.currentState = St.CRACK →
      (updateState ext now s).currentState
        = (if 65 / 100 < s.destructionLevel.val then St.SHATTER
           else if s.destructionLevel.val < 15 / 100 then St.NORMAL else St.CRACK)) := by
  have hdenC : (0:ℤ) < CRACK_THRESHOLD.den := by norm_num [CRACK_THRESHOLD]
  have hdenS : (0:ℤ) < SHATTER_THRESHOLD.den := by norm_num [SHATTER_THRESHOLD]
  have hvalC : CRACK_THRESHOLD.val = 15 / 100 := by norm_num [CRACK_THRESHOLD, Q.val]
  have hvalS : SHATTER_THRESHOLD.val = 65 / 100 := by norm_num [SHATTER_THRESHOLD, Q.val]
  constructor
  · intro hn
    unfold updateState
    dsimp only
    rw [hn]
    dsimp only
    split
    · rename_i hb
      have hv := (Q.blt_iff CRACK_THRESHOLD s.destructionLevel hdenC hdam.1).mp hb
      rw [hvalC] at hv
      rw [if_pos hv]
      simp [emitTone]
    · rename_i hb
      rw [Bool.not_eq_true] at hb
      have hv := Q.blt_false CRACK_THRESHOLD s.destructionLevel hdenC hdam.1 hb
      rw [hvalC] at hv
      rw [if_neg (not_lt.mpr hv)]
  · intro hc
    unfold updateState
    dsimp only
    rw [hc]
    dsimp only
    split
    · rename_i hb
      have hv := (Q.blt_iff SHATTER_THRESHOLD s.destructionLevel hdenS hdam.1).mp hb
      rw [hvalS] at hv
      rw [if_pos hv]
      simp [emitTone, generateParticles]
    · rename_i hb
      rw [Bool.not_eq_true] at hb
      have hv := Q.blt_false SHATTER_THRESHOLD s.destructionLevel hdenS hdam.1 hb
      rw [hvalS] at hv
      rw [if_neg (not_lt.mpr hv)]
      split
      · rename_i hb2
        have hv2 := (Q.blt_iff s.destructionLevel CRACK_THRESHOLD hdam.1 hdenC).mp hb2
        rw [hvalC] at hv2
        rw [if_pos hv2]
      · rename_i hb2
        rw [Bool.not_eq_true] at hb2
        have hv2 := Q.blt_false s.destructionLevel CRACK_THRESHOLD hdam.1 hdenC hb2
        rw [hvalC] at hv2
        rw [if_neg (not_lt.mpr hv2)]

set_option maxRecDepth 500000 in
theorem claim_C2_amended_witness :
    (updateState extF 32 sCrack648).currentState
      = (if 65 / 100 < sCrack648.destructionLevel.val then St.SHATTER
         else if sCrack648.destructionLevel.val < 15 / 100 then St.NORMAL else St.CRACK) :=
  (claim_C2_amended extF 32 sCrack648
    ⟨by rw [sCrack648_facts.2]; norm_num,
     by rw [sCrack648_facts.2]; norm_num [Q.val],
     by rw [sCrack648_facts.2]; norm_num [Q.val]⟩).2 sCrack648_facts.1

/-! ## Characterisation of autoRecover (used by claims C6, C8, C9) -/

theorem autoRecover_characterize (now : ℕ) (s : Sys) :
    autoRecover now s = s ∨
    autoRecover now s = { s with lastInteractionTime := now } ∨
    autoRecover now s = { s with destructionLevel := s.destructionLevel.sub ⟨1, 100⟩,
                                 lastInteractionTime := now } ∨
    autoRecover now s = { s with destructionLevel := Q.ofInt 0,
                                 currentState := St.RECOVERY, stateStartTime := now,
                                 particles := [], cracks := [],
                                 cues := s.cues ++ [(1200, 150)],
                                 lastInteractionTime := now } := by
  unfold autoRecover
  split
  · dsimp only
    split
    · split
      · right; right; right
        simp [emitTone]
      · right; right; left
        rfl
    · right; left
      rfl
  · left
    rfl

/-! ## Claim C6 -/

set_option maxRecDepth 500000 in
theorem sCrack654_facts :
    sCrack654.currentState = St.CRACK ∧
    sCrack654.destructionLevel = ⟨654, 1000⟩ := by decide

set_option maxRecDepth 500000 in
theorem sShat654_facts :
    sShat654.currentState = St.SHATTER ∧
    sShat654.previousState = St.CRACK ∧
    sShat654.particles.length = 150 := by decide

set_option maxRecDepth 500000 in
/-- C6 counterexample: the burst spawned on the tick that enters SHATTER has
`MAX_PARTICLES = 150` particles, not 80 (80 is `MAX_CRACKS`, the crack-store
capacity). -/
theorem claim_C6_counterexample :
    Reachable extF sShat654 ∧
    sShat654.previousState = St.CRACK ∧
    sShat654.currentState = St.SHATTER ∧
    sShat654.particles.length = 150 ∧
    sShat654.particles.length ≠ 80 := by
  refine ⟨Reachable.step 0 Btn.noPress 32
      (Reachable.step 218 Btn.noPress 16 (Reachable.init 0 rng0)),
    sShat654_facts.2.1, sShat654_facts.1, sShat654_facts.2.2, ?_⟩
  rw [sShat654_facts.2.2]
  omega

theorem updateState_crack_to_shatter (ext : Ext) (now : ℕ) (s : Sys)
    (hc : s.currentState = St.CRACK) (hdam : damOK s.destructionLevel)
    (hv : 65 / 100 < s.destructionLevel.val) :
    (updateState ext now s).currentState = St.SHATTER ∧
    (updateState ext now s).particles.length = MAX_PARTICLES := by
  have hdenS : (0:ℤ) < SHATTER_THRESHOLD.den := by norm_num [SHATTER_THRESHOLD]
  have hvalS : SHATTER_THRESHOLD.val = 65 / 100 := by norm_num [SHATTER_THRESHOLD, Q.val]
  have hb : Q.blt SHATTER_THRESHOLD s.destructionLevel = true := by
    rw [Q.blt_iff SHATTER_THRESHOLD s.destructionLevel hdenS hdam.1, hvalS]
    exact hv
  unfold updateState
  dsimp only
  rw [hc]
  dsimp only
  rw [if_pos hb]
  constructor
  · simp [emitTone, generateParticles]
  · simp only [emitTone]
    exact generateParticles_length ext _

theorem updateState_shatter_dwell (ext : Ext) (now : ℕ) (s : Sys)
    (hsh : s.currentState = St.SHATTER)
    (hres : (updateState ext now s).currentState = St.SHATTER) :
    updateState ext now s
      = { s with previousState := St.SHATTER,
                 particles := s.particles.map (updParticle St.SHATTER ext) } := by
  unfold updateState at hres ⊢
  dsimp only at hres ⊢
  rw [hsh] at hres ⊢
  dsimp only at hres ⊢
  simp only [updateParticles] at hres ⊢
  by_cases hc1 : s.encoderDelta < -2
  · rw [if_pos hc1] at hres ⊢
    simp only [emitTone] at hres ⊢
    split at hres <;> exact absurd hres (by simp)
  · rw [if_neg hc1] at hres ⊢
    split at hres
    · exact absurd hres (by simp)
    · rename_i hc2
      rw [if_neg hc2]

theorem tick_shatter_dwell (ext : Ext) (delta : ℤ) (now : ℕ) (s : Sys)
    (hsh : s.currentState = St.SHATTER)
    (hres : (tick ext delta Btn.noPress now s).currentState = St.SHATTER) :
    (tick ext delta Btn.noPress now s).particles
      = s.particles.map (updParticle St.SHATTER ext) := by
  rw [tick_eq, handleButton_noPress] at hres ⊢
  set sE : Sys := updateEncoder delta now { s with cues := [], lastUpdateTime := now }
    with hsE
  have hEs : sE.currentState = St.SHATTER := by
    rw [hsE, updateEncoder_currentState]
    exact hsh
  have hEp : sE.particles = s.particles := by
    rw [hsE, updateEncoder_particles]
  set sU : Sys := updateState ext now sE with hsU
  set sR : Sys := renderState ext sU with hsR
  have hRs : sR.currentState = sU.currentState := by
    rw [hsR]; exact renderState_currentState ext sU
  have hRp : sR.particles = sU.particles := by
    rw [hsR]; exact renderState_particles ext sU
  have hfin : ∀ hUs : sU.currentState = St.SHATTER,
      sU.particles = s.particles.map (updParticle St.SHATTER ext) := by
    intro hUs
    rw [hsU, updateState_shatter_dwell ext now sE hEs (hsU ▸ hUs)]
    dsimp only
    rw [hEp]
  rcases autoRecover_characterize now sR with h | h | h | h
  · rw [h] at hres ⊢
    rw [hRp]
    exact hfin (by rw [← hRs]; exact hres)
  · rw [h] at hres ⊢
    dsimp only at hres ⊢
    rw [hRp]
    exact hfin (by rw [← hRs]; exact hres)
  · rw [h] at hres ⊢
    dsimp only at hres ⊢
    rw [hRp]
    exact hfin (by rw [← hRs]; exact hres)
  · rw [h] at hres
    dsimp only at hres
    exact absurd hres (by simp)

/-- C6 amended: the tick that enters SHATTER (from CRACK with damage above
`0.65`) spawns a burst of exactly `MAX_PARTICLES = 150` particles (not 80),
and it happens exactly once: any further tick that dwells in SHATTER only
animates the existing particles (`updateParticles` in disperse mode) and
never spawns a new burst. -/
theorem claim_C6_amended :
    (∀ (ext : Ext) (now : ℕ) (s : Sys), s.currentState = St.CRACK →
        damOK s.destructionLevel → 65 / 100 < s.destructionLevel.val →
        (updateState ext now s).currentState = St.SHATTER ∧
        (updateState ext now s).particles.length = MAX_PARTICLES) ∧
    (∀ (ext : Ext) (delta : ℤ) (now : ℕ) (s : Sys), s.currentState = St.SHATTER →
        (tick ext delta Btn.noPress now s).currentState = St.SHATTER →
        (tick ext delta Btn.noPress now s).particles
          = s.particles.map (updParticle St.SHATTER ext)) :=
  ⟨fun ext now s hc hd hv => updateState_crack_to_shatter ext now s hc hd hv,
   fun ext delta now s hs hr => tick_shatter_dwell ext delta now s hs hr⟩

set_option maxRecDepth 500000 in
theorem claim_C6_amended_witness :
    ((updateState extF 32 sCrack654).currentState = St.SHATTER ∧
     (updateState extF 32 sCrack654).particles.length = MAX_PARTICLES) ∧
    (tick extF 0 Btn.noPress 48 sShat654).particles
      = sShat654.particles.map (updParticle St.SHATTER extF) :=
  ⟨claim_C6_amended.1 extF 32 sCrack654 sCrack654_facts.1
      ⟨by rw [sCrack654_facts.2]; norm_num,
       by rw [sCrack654_facts.2]; norm_num [Q.val],
       by rw [sCrack654_facts.2]; norm_num [Q.val]⟩
      (by rw [sCrack654_facts.2]; norm_num [Q.val]),
   claim_C6_amended.2 extF 0 48 sShat654 sShat654_facts.1 (by decide)⟩

/-! ## Claim C8 machinery: when can a store become empty? -/

theorem generateCrack_cracks_nil (ext : Ext) (cx cy angle : Q) (gen : ℤ) (s : Sys)
    (h : (generateCrack ext cx cy angle gen s).cracks = []) : s.cracks = [] := by
  unfold generateCrack at h
  split at h
  · exact h
  · simp at h

theorem seedLoop_cracks_nil (ext : Ext) (target : ℤ) (fuel : ℕ) (s : Sys)
    (h : (seedLoop ext target fuel s).cracks = []) : s.cracks = [] := by
  induction fuel generalizing s with
  | zero => exact h
  | succ n ih =>
    rw [seedLoop] at h
    dsimp only at h
    split at h
    · have h2 := ih _ h
      have h3 := generateCrack_cracks_nil _ _ _ _ _ _ h2
      exact h3
    · exact h

theorem branchLoop_cracks_nil (ext : Ext) (l : List Crack) (s : Sys)
    (h : (branchLoop ext l s).cracks = []) : s.cracks = [] := by
  induction l generalizing s with
  | nil => exact h
  | cons c rest ih =>
    rw [branchLoop] at h
    dsimp only at h
    split at h
    · split at h
      · have h2 := ih _ h
        have h3 := generateCrack_cracks_nil _ _ _ _ _ _ h2
        exact h3
      · have h2 := ih _ h
        exact h2
    · have h2 := ih _ h
      exact h2

theorem renderState_cracks_nil (ext : Ext) (s : Sys)
    (h : (renderState ext s).cracks = []) : s.cracks = [] := by
  unfold renderState at h
  split at h
  · unfold renderCrack at h
    dsimp only at h
    have h2 := branchLoop_cracks_nil _ _ _ h
    have h3 := seedLoop_cracks_nil _ _ _ _ h2
    exact h3
  · simpa [renderRebuild] using h
  · exact h

theorem generateParticles_cracks (ext : Ext) (s : Sys) :
    (generateParticles ext s).cracks = s.cracks := by
  simp only [generateParticles]

theorem generateParticles_currentState (ext : Ext) (s : Sys) :
    (generateParticles ext s).currentState = s.currentState := by
  simp only [generateParticles]

theorem updateState_cracks_nil (ext : Ext) (now : ℕ) (s : Sys)
    (h : (updateState ext now s).cracks = []) :
    s.cracks = [] ∨ (updateState ext now s).currentState = St.NORMAL := by
  unfold updateState at h ⊢
  dsimp only at h ⊢
  cases hc : s.currentState <;> dsimp only at h ⊢ <;> (repeat' split at h) <;>
    simp_all [emitTone, updateParticles, generateParticles_cracks,
      generateParticles_currentState]

theorem generateParticles_ne_nil (ext : Ext) (s : Sys) :
    (generateParticles ext s).particles ≠ [] := by
  intro h
  have hl := generateParticles_length ext s
  rw [h] at hl
  simp [MAX_PARTICLES] at hl

set_option maxRecDepth 40000 in
theorem updateState_particles_nil (ext : Ext) (now : ℕ) (s : Sys)
    (h : (updateState ext now s).particles = []) :
    s.particles = [] ∨ (updateState ext now s).currentState = St.NORMAL := by
  cases hc : s.currentState
  · unfold updateState at h ⊢
    dsimp only at h ⊢
    rw [hc] at h ⊢
    dsimp only at h ⊢
    left
    (repeat' split at h) <;> simp_all [emitTone]
  · unfold updateState at h ⊢
    dsimp only at h ⊢
    rw [hc] at h ⊢
    dsimp only at h ⊢
    (repeat' split at h)
    · exfalso
      simp only [emitTone] at h
      exact generateParticles_ne_nil ext _ h
    · left
      exact h
    · left
      exact h
  · unfold updateState at h ⊢
    dsimp only at h ⊢
    rw [hc] at h ⊢
    dsimp only at h ⊢
    left
    (repeat' split at h) <;> simp_all [emitTone, updateParticles]
  · unfold updateState at h ⊢
    dsimp only at h ⊢
    rw [hc] at h ⊢
    dsimp only at h ⊢
    left
    (repeat' split at h) <;> simp_all [emitTone]
  · unfold updateState at h ⊢
    dsimp only at h ⊢
    rw [hc] at h ⊢
    dsimp only at h ⊢
    left
    (repeat' split at h) <;> simp_all [emitTone, updateParticles]
  · unfold updateState at h ⊢
    dsimp only at h ⊢
    rw [hc] at h ⊢
    dsimp only at h ⊢
    (repeat' split at h) <;> simp_all

theorem handleButton_cracks_nil (btn : Btn) (now : ℕ) (s : Sys)
    (h : (handleButton btn now s).cracks = []) :
    s.cracks = [] ∨ (handleButton btn now s).currentState = St.NORMAL := by
  cases btn
  · left; exact h
  · unfold handleButton at h ⊢
    cases hc : s.currentState <;> dsimp only at h ⊢ <;> simp_all [emitTone]
  · right; rfl

theorem handleButton_particles_nil (btn : Btn) (now : ℕ) (s : Sys)
    (h : (handleButton btn now s).particles = []) :
    s.particles = [] ∨ (handleButton btn now s).currentState = St.NORMAL ∨
      (handleButton btn now s).currentState = St.CRACK := by
  cases btn
  · left; exact h
  · unfold handleButton at h ⊢
    cases hc : s.currentState <;> dsimp only at h ⊢ <;> simp_all [emitTone]
  · right; left; rfl

theorem autoRecover_cracks_nil (now : ℕ) (s : Sys)
    (h : (autoRecover now s).cracks = []) :
    s.cracks = [] ∨ (autoRecover now s).currentState = St.RECOVERY := by
  rcases autoRecover_characterize now s with hch | hch | hch | hch <;> rw [hch] at h ⊢
  · left; exact h
  · left; exact h
  · left; exact h
  · right; rfl

theorem autoRecover_particles_nil (now : ℕ) (s : Sys)
    (h : (autoRecover now s).particles = []) :
    s.particles = [] ∨ (autoRecover now s).currentState = St.RECOVERY := by
  rcases autoRecover_characterize now s with hch | hch | hch | hch <;> rw [hch] at h ⊢
  · left; exact h
  · left; exact h
  · left; exact h
  · right; rfl

/-! ## Claim C8 -/

/-- C8 amended: a nonempty store can be emptied only by the operations that
clear it explicitly, and each of them is tied to a specific target category:
`updateState`'s clears land in NORMAL (CRACK back-transition and RECOVERY
completion), `handleButton`'s clears land in NORMAL or — for the particle
store on a step-back from SHATTER/SILENCE — in CRACK, and `autoRecover`'s
clear lands in RECOVERY; the rotation update and the renderers never empty a
store (crack rendering only appends, fading never removes). -/
theorem claim_C8_amended :
    (∀ (delta : ℤ) (now : ℕ) (s : Sys),
      (updateEncoder delta now s).cracks = s.cracks ∧
      (updateEncoder delta now s).particles = s.particles) ∧
    (∀ (btn : Btn) (now : ℕ) (s : Sys),
      ((handleButton btn now s).cracks = [] →
        s.cracks = [] ∨ (handleButton btn now s).currentState = St.NORMAL) ∧
      ((handleButton btn now s).particles = [] →
        s.particles = [] ∨ (handleButton btn now s).currentState = St.NORMAL ∨
          (handleButton btn now s).currentState = St.CRACK)) ∧
    (∀ (ext : Ext) (now : ℕ) (s : Sys),
      ((updateState ext now s).cracks = [] →
        s.cracks = [] ∨ (updateState ext now s).currentState = St.NORMAL) ∧
      ((updateState ext now s).particles = [] →
        s.particles = [] ∨ (updateState ext now s).currentState = St.NORMAL)) ∧
    (∀ (ext : Ext) (s : Sys),
      ((renderState ext s).cracks = [] → s.cracks = []) ∧
      (renderState ext s).particles = s.particles) ∧
    (∀ (now : ℕ) (s : Sys),
      ((autoRecover now s).cracks = [] →
        s.cracks = [] ∨ (autoRecover now s).currentState = St.RECOVERY) ∧
      ((autoRecover now s).particles = [] →
        s.particles = [] ∨ (autoRecover now s).currentState = St.RECOVERY)) :=
  ⟨fun delta now s => ⟨updateEncoder_cracks delta now s, updateEncoder_particles delta now s⟩,
   fun btn now s => ⟨handleButton_cracks_nil btn now s, handleButton_particles_nil btn now s⟩,
   fun ext now s => ⟨updateState_cracks_nil ext now s, updateState_particles_nil ext now s⟩,
   fun ext s => ⟨renderState_cracks_nil ext s, renderState_particles ext s⟩,
   fun now s => ⟨autoRecover_cracks_nil now s, autoRecover_particles_nil now s⟩⟩

theorem claim_C8_amended_witness :
    ((updateEncoder 5 16 sInit).cracks = sInit.cracks ∧
      (updateEncoder 5 16 sInit).particles = sInit.particles) ∧
    (sInit.cracks = [] ∨ (handleButton Btn.shortPress 16 sInit).currentState = St.NORMAL) ∧
    (sInit.particles = [] ∨ (updateState extN 16 sInit).currentState = St.NORMAL) ∧
    (sInit.cracks = []) ∧
    (sInit.particles = [] ∨ (autoRecover 16 sInit).currentState = St.RECOVERY) :=
  ⟨(claim_C8_amended.1 5 16 sInit),
   (claim_C8_amended.2.1 Btn.shortPress 16 sInit).1 (by decide),
   (claim_C8_amended.2.2.1 extN 16 sInit).2 (by decide),
   (claim_C8_amended.2.2.2.1 extN sInit).1 (by decide),
   (claim_C8_amended.2.2.2.2 16 sInit).2 (by decide)⟩

/-! ## Symbolic characterisation of the SHATTER step-back tick (claim C8) -/

theorem updateEncoder_zero (now : ℕ) (s : Sys) :
    updateEncoder 0 now s
      = { s with encoderDelta := 0, encoderValue := s.encoderValue + 0,
                 rotationSpeed := s.rotationSpeed.mul ⟨9, 10⟩ } := by
  unfold updateEncoder
  rw [if_neg (by simp)]

theorem handleButton_short_shatter (now : ℕ) (s : Sys)
    (h : s.currentState = St.SHATTER) :
    handleButton Btn.shortPress now s
      = emitTone { s with currentState := St.CRACK, particles := [],
                          destructionLevel := CRACK_THRESHOLD.add ⟨1, 10⟩,
                          lastInteractionTime := now } 800 50 := by
  unfold handleButton
  dsimp only
  rw [h]

theorem updateState_crack_stay (ext : Ext) (now : ℕ) (x : Sys)
    (hc : x.currentState = St.CRACK)
    (h1 : Q.blt SHATTER_THRESHOLD x.destructionLevel = false)
    (h2 : Q.blt x.destructionLevel CRACK_THRESHOLD = false) :
    updateState ext now x = { x with previousState := St.CRACK } := by
  unfold updateState
  dsimp only
  rw [hc]
  dsimp only
  rw [h1, h2]
  simp

theorem seedLoop_at_cap (ext : Ext) (target : ℤ) (fuel : ℕ) (s : Sys)
    (hcap : MAX_CRACKS ≤ s.cracks.length) :
    seedLoop ext target fuel s = s := by
  cases fuel with
  | zero => rfl
  | succ n =>
    rw [seedLoop]
    dsimp only
    rw [if_neg (fun hcon => absurd hcon.2 (not_lt.mpr hcap))]

theorem renderCrack_at_cap (ext : Ext) (x : Sys)
    (hcap : MAX_CRACKS ≤ x.cracks.length) :
    renderCrack ext x = branchLoop ext x.cracks x := by
  unfold renderCrack
  dsimp only
  rw [seedLoop_at_cap ext _ MAX_CRACKS x hcap]

theorem tick_shortPress_from_shatter (ext : Ext) (now : ℕ) (s : Sys)
    (hsh : s.currentState = St.SHATTER) :
    (tick ext 0 Btn.shortPress now s).currentState = St.CRACK ∧
    (tick ext 0 Btn.shortPress now s).particles = [] := by
  rw [tick_eq]
  rw [updateEncoder_zero]
  rw [handleButton_short_shatter _ _ (by exact hsh)]
  simp only [emitTone]
  rw [updateState_crack_stay ext now _ (by rfl)
    (by show Q.blt SHATTER_THRESHOLD (CRACK_THRESHOLD.add ⟨1, 10⟩) = false; decide)
    (by show Q.blt (CRACK_THRESHOLD.add ⟨1, 10⟩) CRACK_THRESHOLD = false; decide)]
  rw [autoRecover_quiet]
  constructor
  · rw [renderState_currentState]
  · rw [renderState_particles]
  · rintro ⟨-, habs⟩
    rw [renderState_lastInteractionTime] at habs
    simp [AUTO_RECOVER_TIME] at habs

set_option maxRecDepth 500000 in
/-- C8 counterexample: a short button press while SHATTER is showing steps the
machine back to CRACK — not to NORMAL/Pristine — and in doing so empties the
particle store completely (`particles.clear()` in `handleButton`), refuting the
claim that either store is cleared entirely only on a transition to Pristine. -/
theorem claim_C8_counterexample :
    Reachable extF sShat654 ∧
    sShat654.particles ≠ [] ∧
    (tick extF 0 Btn.shortPress 48 sShat654).particles = [] ∧
    (tick extF 0 Btn.shortPress 48 sShat654).currentState = St.CRACK ∧
    St.CRACK ≠ St.NORMAL := by
  have hf := sShat654_facts
  have ht := tick_shortPress_from_shatter extF 48 sShat654 hf.1
  refine ⟨Reachable.step 0 Btn.noPress 32
      (Reachable.step 218 Btn.noPress 16 (Reachable.init 0 rng0)),
    ?_, ht.2, ht.1, by decide⟩
  intro h
  have hlen := hf.2.2
  rw [h] at hlen
  exact absurd hlen (by decide)

/-! ## Claim C5: the idle recovery path from SILENCE -/

theorem Q.ble_eq_false (a b : Q) (ha : 0 < a.den) (hb : 0 < b.den)
    (h : b.val < a.val) : Q.ble a b = false := by
  cases heq : Q.ble a b with
  | false => rfl
  | true => exact absurd ((Q.ble_iff a b ha hb).mp heq) (not_le.mpr h)

theorem renderState_of_silence (ext : Ext) (s : Sys) (h : s.currentState = St.SILENCE) :
    renderState ext s = s := by
  unfold renderState
  rw [h]

theorem renderState_of_normal (ext : Ext) (s : Sys) (h : s.currentState = St.NORMAL) :
    renderState ext s = s := by
  unfold renderState
  rw [h]

theorem updateState_silence_stay (ext : Ext) (now : ℕ) (x : Sys)
    (hc : x.currentState = St.SILENCE) (hd : ¬ x.encoderDelta < 0) :
    updateState ext now x = { x with previousState := St.SILENCE } := by
  unfold updateState
  dsimp only
  rw [hc]
  dsimp only
  rw [if_neg hd]

theorem updateState_recovery_done (ext : Ext) (now : ℕ) (x : Sys)
    (hc : x.currentState = St.RECOVERY) (hdw : 800 < now - x.stateStartTime) :
    updateState ext now x
      = { x with previousState := St.RECOVERY, currentState := St.NORMAL,
                 particles := [], cracks := [], destructionLevel := Q.ofInt 0,
                 stateStartTime := now } := by
  unfold updateState
  dsimp only
  rw [hc]
  dsimp only
  rw [if_pos hdw]

theorem autoRecover_decrement (now : ℕ) (x : Sys)
    (hfire : x.currentState ≠ St.NORMAL ∧ AUTO_RECOVER_TIME < now - x.lastInteractionTime)
    (hpos : Q.blt (Q.ofInt 0) x.destructionLevel = true)
    (hnz : Q.ble (x.destructionLevel.sub ⟨1, 100⟩) (Q.ofInt 0) = false) :
    autoRecover now x
      = { x with destructionLevel := x.destructionLevel.sub ⟨1, 100⟩,
                 lastInteractionTime := now } := by
  unfold autoRecover
  rw [if_pos hfire]
  dsimp only
  split
  · split
    · next hd => rw [hnz] at hd; exact absurd hd (by simp)
    · rfl
  · next hb => exact absurd hpos hb

theorem autoRecover_completion (now : ℕ) (x : Sys)
    (hfire : x.currentState ≠ St.NORMAL ∧ AUTO_RECOVER_TIME < now - x.lastInteractionTime)
    (hpos : Q.blt (Q.ofInt 0) x.destructionLevel = true)
    (hz : Q.ble (x.destructionLevel.sub ⟨1, 100⟩) (Q.ofInt 0) = true) :
    autoRecover now x
      = { x with destructionLevel := Q.ofInt 0, currentState := St.RECOVERY,
                 stateStartTime := now, particles := [], cracks := [],
                 cues := x.cues ++ [(1200, 150)], lastInteractionTime := now } := by
  unfold autoRecover
  rw [if_pos hfire]
  dsimp only
  rw [hpos, hz]
  simp [emitTone]

/-- One idle tick in SILENCE past the auto-recover timeout, short of completion:
the damage steps down by `0.01` and the idle clock is re-armed; state and both
stores are untouched. -/
theorem tick_silence_idle (ext : Ext) (now : ℕ) (s : Sys)
    (hst : s.currentState = St.SILENCE)
    (hidle : AUTO_RECOVER_TIME < now - s.lastInteractionTime)
    (hpos : Q.blt (Q.ofInt 0) s.destructionLevel = true)
    (hnz : Q.ble (s.destructionLevel.sub ⟨1, 100⟩) (Q.ofInt 0) = false) :
    (tick ext 0 Btn.noPress now s).currentState = St.SILENCE ∧
    (tick ext 0 Btn.noPress now s).destructionLevel = s.destructionLevel.sub ⟨1, 100⟩ ∧
    (tick ext 0 Btn.noPress now s).lastInteractionTime = now ∧
    (tick ext 0 Btn.noPress now s).cracks = s.cracks ∧
    (tick ext 0 Btn.noPress now s).particles = s.particles := by
  rw [tick_eq, updateEncoder_zero, handleButton_noPress]
  rw [updateState_silence_stay ext now _ (by exact hst) (by exact lt_irrefl 0)]
  rw [renderState_of_silence ext _ (by exact hst)]
  rw [autoRecover_decrement now _
    ⟨by show s.currentState ≠ St.NORMAL; rw [hst]; decide, by exact hidle⟩
    (by exact hpos) (by exact hnz)]
  exact ⟨hst, rfl, rfl, rfl, rfl⟩

/-- The idle tick that takes the damage to (or through) zero: jump to RECOVERY,
both stores cleared, damage reset to exactly `0`. -/
theorem tick_silence_idle_done (ext : Ext) (now : ℕ) (s : Sys)
    (hst : s.currentState = St.SILENCE)
    (hidle : AUTO_RECOVER_TIME < now - s.lastInteractionTime)
    (hpos : Q.blt (Q.ofInt 0) s.destructionLevel = true)
    (hz : Q.ble (s.destructionLevel.sub ⟨1, 100⟩) (Q.ofInt 0) = true) :
    (tick ext 0 Btn.noPress now s).currentState = St.RECOVERY ∧
    (tick ext 0 Btn.noPress now s).stateStartTime = now := by
  rw [tick_eq, updateEncoder_zero, handleButton_noPress]
  rw [updateState_silence_stay ext now _ (by exact hst) (by exact lt_irrefl 0)]
  rw [renderState_of_silence ext _ (by exact hst)]
  rw [autoRecover_completion now _
    ⟨by show s.currentState ≠ St.NORMAL; rw [hst]; decide, by exact hidle⟩
    (by exact hpos) (by exact hz)]
  exact ⟨rfl, rfl⟩

/-- A zero-input tick in RECOVERY after the 800 ms dwell: back to NORMAL with
both stores emptied and the damage reset to exactly `0`. -/
theorem tick_recovery_to_normal (ext : Ext) (now : ℕ) (s : Sys)
    (hc : s.currentState = St.RECOVERY)
    (hdw : 800 < now - s.stateStartTime) :
    (tick ext 0 Btn.noPress now s).currentState = St.NORMAL ∧
    (tick ext 0 Btn.noPress now s).cracks = [] ∧
    (tick ext 0 Btn.noPress now s).particles = [] ∧
    (tick ext 0 Btn.noPress now s).destructionLevel = Q.ofInt 0 := by
  rw [tick_eq, updateEncoder_zero, handleButton_noPress]
  rw [updateState_recovery_done ext now _ (by exact hc) (by exact hdw)]
  rw [renderState_of_normal ext _ rfl]
  rw [autoRecover_quiet now _ (by rintro ⟨h, -⟩; exact h rfl)]
  exact ⟨rfl, rfl, rfl, rfl⟩

/-- Repeated idling: each auto-recover firing re-arms the idle clock, so the
next firing is only reached a full `gap` later; `idleRun` spaces its zero-input
ticks accordingly. -/
def idleRun (ext : Ext) (gap : ℕ) : ℕ → Sys → Sys
  | 0, s => s
  | k + 1, s => idleRun ext gap k (tick ext 0 Btn.noPress (s.lastInteractionTime + gap) s)

theorem idleRun_succ_last (ext : Ext) (gap k : ℕ) (s : Sys) :
    idleRun ext gap (k + 1) s
      = tick ext 0 Btn.noPress ((idleRun ext gap k s).lastInteractionTime + gap)
          (idleRun ext gap k s) := by
  induction k generalizing s with
  | zero => rfl
  | succ n ih =>
    have h1 : idleRun ext gap (n + 1 + 1) s
        = idleRun ext gap (n + 1)
            (tick ext 0 Btn.noPress (s.lastInteractionTime + gap) s) := rfl
    rw [h1, ih]
    rfl

/-- Invariant of the idle countdown: as long as more than `k/100` damage is
left, `k` spaced idle ticks stay in SILENCE, remove exactly `k/100`, and leave
both stores untouched. -/
theorem idleRun_silence_inv (ext : Ext) (k : ℕ) (s : Sys)
    (hst : s.currentState = St.SILENCE)
    (hden : 0 < s.destructionLevel.den)
    (hval : (k : ℚ) / 100 < s.destructionLevel.val) :
    (idleRun ext (AUTO_RECOVER_TIME + 1) k s).currentState = St.SILENCE ∧
    0 < (idleRun ext (AUTO_RECOVER_TIME + 1) k s).destructionLevel.den ∧
    (idleRun ext (AUTO_RECOVER_TIME + 1) k s).destructionLevel.val
      = s.destructionLevel.val - (k : ℚ) / 100 ∧
    (idleRun ext (AUTO_RECOVER_TIME + 1) k s).cracks = s.cracks ∧
    (idleRun ext (AUTO_RECOVER_TIME + 1) k s).particles = s.particles := by
  induction k generalizing s with
  | zero => exact ⟨hst, hden, by simp [idleRun], rfl, rfl⟩
  | succ n ih =>
    have hden100 : (0 : ℤ) < 100 := by norm_num
    have hvpos : (0 : ℚ) < s.destructionLevel.val :=
      lt_of_le_of_lt (by positivity) hval
    have hv1 : (1 : ℚ) / 100 < s.destructionLevel.val := by
      have hn : (0 : ℚ) ≤ (n : ℚ) := Nat.cast_nonneg n
      push_cast at hval
      linarith
    have hsubden : 0 < (s.destructionLevel.sub ⟨1, 100⟩).den := by
      rw [Q.den_sub]
      positivity
    have hsubval : (s.destructionLevel.sub ⟨1, 100⟩).val
        = s.destructionLevel.val - 1 / 100 := by
      rw [Q.val_sub _ _ (by omega) (by norm_num)]
      norm_num [Q.val]
    have hpos : Q.blt (Q.ofInt 0) s.destructionLevel = true := by
      rw [Q.blt_iff _ _ (by decide) hden, Q.val_ofInt]
      exact_mod_cast hvpos
    have hnz : Q.ble (s.destructionLevel.sub ⟨1, 100⟩) (Q.ofInt 0) = false := by
      refine Q.ble_eq_false _ _ hsubden (by decide) ?_
      rw [Q.val_ofInt, hsubval]
      push_cast
      linarith
    have hstep := tick_silence_idle ext (s.lastInteractionTime + (AUTO_RECOVER_TIME + 1)) s
      hst (by omega) hpos hnz
    have hpeel : idleRun ext (AUTO_RECOVER_TIME + 1) (n + 1) s
        = idleRun ext (AUTO_RECOVER_TIME + 1) n
            (tick ext 0 Btn.noPress (s.lastInteractionTime + (AUTO_RECOVER_TIME + 1)) s) := rfl
    have hvF : (tick ext 0 Btn.noPress (s.lastInteractionTime + (AUTO_RECOVER_TIME + 1)) s).destructionLevel.val
        = s.destructionLevel.val - 1 / 100 := by
      rw [hstep.2.1, hsubval]
    have hdF : 0 < (tick ext 0 Btn.noPress (s.lastInteractionTime + (AUTO_RECOVER_TIME + 1)) s).destructionLevel.den := by
      rw [hstep.2.1]
      exact hsubden
    have hvalF : (n : ℚ) / 100
        < (tick ext 0 Btn.noPress (s.lastInteractionTime + (AUTO_RECOVER_TIME + 1)) s).destructionLevel.val := by
      rw [hvF]
      push_cast at hval ⊢
      linarith
    have hI := ih _ hstep.1 hdF hvalF
    rw [hpeel]
    refine ⟨hI.1, hI.2.1, ?_, ?_, ?_⟩
    · rw [hI.2.2.1, hvF]
      push_cast
      ring
    · rw [hI.2.2.2.1, hstep.2.2.2.1]
    · rw [hI.2.2.2.2, hstep.2.2.2.2]

/-- C5 amended: idling does deterministically reconstruct to pristine with both
stores empty, but not within one idle timeout: every auto-recover firing
removes only `0.01` damage and re-arms the idle clock, so from damage `1` the
machine needs `100` firings, each a full `AUTO_RECOVER_TIME` apart, reaching
RECOVERY with both stores cleared, and a final tick `801 ms` into RECOVERY
lands in NORMAL with damage exactly `0` and both stores empty. -/
theorem claim_C5_amended (ext : Ext) (s : Sys)
    (hst : s.currentState = St.SILENCE)
    (hden : 0 < s.destructionLevel.den)
    (hval : s.destructionLevel.val = 1) :
    (tick ext 0 Btn.noPress
        ((idleRun ext (AUTO_RECOVER_TIME + 1) 100 s).stateStartTime + 801)
        (idleRun ext (AUTO_RECOVER_TIME + 1) 100 s)).currentState = St.NORMAL ∧
    (tick ext 0 Btn.noPress
        ((idleRun ext (AUTO_RECOVER_TIME + 1) 100 s).stateStartTime + 801)
        (idleRun ext (AUTO_RECOVER_TIME + 1) 100 s)).cracks = [] ∧
    (tick ext 0 Btn.noPress
        ((idleRun ext (AUTO_RECOVER_TIME + 1) 100 s).stateStartTime + 801)
        (idleRun ext (AUTO_RECOVER_TIME + 1) 100 s)).particles = [] ∧
    (tick ext 0 Btn.noPress
        ((idleRun ext (AUTO_RECOVER_TIME + 1) 100 s).stateStartTime + 801)
        (idleRun ext (AUTO_RECOVER_TIME + 1) 100 s)).destructionLevel = Q.ofInt 0 := by
  have h99 := idleRun_silence_inv ext 99 s hst hden (by rw [hval]; norm_num)
  have hu_val : (idleRun ext (AUTO_RECOVER_TIME + 1) 99 s).destructionLevel.val
      = 1 / 100 := by
    rw [h99.2.2.1, hval]
    norm_num
  have hsubden :
      0 < ((idleRun ext (AUTO_RECOVER_TIME + 1) 99 s).destructionLevel.sub ⟨1, 100⟩).den := by
    rw [Q.den_sub]
    exact mul_pos h99.2.1 (by decide)
  have hsubval :
      ((idleRun ext (AUTO_RECOVER_TIME + 1) 99 s).destructionLevel.sub ⟨1, 100⟩).val = 0 := by
    rw [Q.val_sub _ _ (ne_of_gt h99.2.1) (by norm_num), hu_val]
    norm_num [Q.val]
  have hpos :
      Q.blt (Q.ofInt 0) (idleRun ext (AUTO_RECOVER_TIME + 1) 99 s).destructionLevel = true := by
    rw [Q.blt_iff _ _ (by decide) h99.2.1, Q.val_ofInt, hu_val]
    norm_num
  have hz :
      Q.ble ((idleRun ext (AUTO_RECOVER_TIME + 1) 99 s).destructionLevel.sub ⟨1, 100⟩)
        (Q.ofInt 0) = true := by
    rw [Q.ble_iff _ _ hsubden (by decide), Q.val_ofInt, hsubval]
    norm_num
  have hdone := tick_silence_idle_done ext
    ((idleRun ext (AUTO_RECOVER_TIME + 1) 99 s).lastInteractionTime + (AUTO_RECOVER_TIME + 1))
    (idleRun ext (AUTO_RECOVER_TIME + 1) 99 s) h99.1 (by omega) hpos hz
  have hpeel := idleRun_succ_last ext (AUTO_RECOVER_TIME + 1) 99 s
  rw [show (100 : ℕ) = 99 + 1 from rfl, hpeel]
  exact tick_recovery_to_normal ext _ _ hdone.1 (by omega)

def sSilW : Sys := { initSys 0 rng0 with currentState := St.SILENCE, destructionLevel := ⟨1, 1⟩ }

theorem claim_C5_amended_witness :
    (sSilW.currentState = St.SILENCE ∧
     0 < sSilW.destructionLevel.den ∧
     sSilW.destructionLevel.val = 1) ∧
    ((tick extN 0 Btn.noPress
        ((idleRun extN (AUTO_RECOVER_TIME + 1) 100 sSilW).stateStartTime + 801)
        (idleRun extN (AUTO_RECOVER_TIME + 1) 100 sSilW)).currentState = St.NORMAL ∧
     (tick extN 0 Btn.noPress
        ((idleRun extN (AUTO_RECOVER_TIME + 1) 100 sSilW).stateStartTime + 801)
        (idleRun extN (AUTO_RECOVER_TIME + 1) 100 sSilW)).cracks = [] ∧
     (tick extN 0 Btn.noPress
        ((idleRun extN (AUTO_RECOVER_TIME + 1) 100 sSilW).stateStartTime + 801)
        (idleRun extN (AUTO_RECOVER_TIME + 1) 100 sSilW)).particles = [] ∧
     (tick extN 0 Btn.noPress
        ((idleRun extN (AUTO_RECOVER_TIME + 1) 100 sSilW).stateStartTime + 801)
        (idleRun extN (AUTO_RECOVER_TIME + 1) 100 sSilW)).destructionLevel = Q.ofInt 0) :=
  ⟨⟨rfl, by decide, by norm_num [sSilW, initSys, Q.val]⟩,
   claim_C5_amended extN sSilW rfl (by decide) (by norm_num [sSilW, initSys, Q.val])⟩

theorem Reachable_run (ext : Ext) (l : List Input) {s : Sys} (h : Reachable ext s) :
    Reachable ext (run ext s l) := by
  induction l generalizing s with
  | nil => exact h
  | cons i t ih => exact ih (Reachable.step i.delta i.btn i.now h)

/-- A concrete run into SILENCE with damage exactly `1`: one `+333` push to
`0.999` (NORMAL to CRACK), a `+1` push clamped to `1` (CRACK to SHATTER, burst),
then 22 zero-input ticks during which the rotation speed decays below `0.01`
and, past the 1000 ms idle dwell, SHATTER hands over to SILENCE. -/
def c5inputs : List Input :=
  ⟨333, Btn.noPress, 16⟩ :: ⟨1, Btn.noPress, 32⟩ ::
    (List.range 22).map (fun k => ⟨0, Btn.noPress, 132 + 100 * k⟩)

def sSil1 : Sys := run extF sInit c5inputs

set_option maxRecDepth 500000 in
theorem sSil1_facts :
    sSil1.currentState = St.SILENCE ∧
    sSil1.destructionLevel = ⟨1, 1⟩ ∧
    sSil1.particles.length = 150 ∧
    sSil1.lastInteractionTime = 32 := by decide

set_option maxRecDepth 500000 in
theorem sSil1_post :
    (tick extF 0 Btn.noPress 10033 sSil1).currentState = St.SILENCE ∧
    (tick extF 0 Btn.noPress 10033 sSil1).destructionLevel = ⟨99, 100⟩ ∧
    (tick extF 0 Btn.noPress 10033 sSil1).particles.length = 150 := by decide

/-- C5 counterexample: from a reachable SILENCE state with damage exactly `1`,
idling for the full `AUTO_RECOVER_TIME` does not reach pristine: the tick one
millisecond past the timeout leaves the machine still in SILENCE with damage
`0.99` and the full 150-particle store — a single idle timeout removes only
`0.01` of damage, and the firing re-arms the idle clock. -/
theorem claim_C5_counterexample :
    Reachable extF sSil1 ∧
    sSil1.currentState = St.SILENCE ∧
    sSil1.destructionLevel.val = 1 ∧
    10033 = sSil1.lastInteractionTime + (AUTO_RECOVER_TIME + 1) ∧
    (tick extF 0 Btn.noPress 10033 sSil1).currentState ≠ St.NORMAL ∧
    (tick extF 0 Btn.noPress 10033 sSil1).destructionLevel.val = 99 / 100 ∧
    (tick extF 0 Btn.noPress 10033 sSil1).particles ≠ [] := by
  have hf := sSil1_facts
  have hp := sSil1_post
  refine ⟨Reachable_run extF c5inputs (Reachable.init 0 rng0), hf.1, ?_, ?_, ?_, ?_, ?_⟩
  · rw [hf.2.1]
    norm_num [Q.val]
  · rw [hf.2.2.2]
    decide
  · rw [hp.1]
    decide
  · rw [hp.2.1]
    norm_num [Q.val]
  · intro h
    have hlen := hp.2.2
    rw [h] at hlen
    exact absurd hlen (by decide)

/-! ## Claim C9: repeated zero-input ticks -/

/-- What a zero-delta `updateState` can do: a cue is emitted only together with
a category change; the damage is written only by the RECOVERY-to-NORMAL
handover after the 800 ms dwell; and a tick can end in RECOVERY only by
entering it now (stamping `stateStartTime := now`) or by dwelling there with
the 800 ms not yet elapsed. -/
theorem updateState_zero_facts (ext : Ext) (now : ℕ) (y : Sys)
    (h0 : y.encoderDelta = 0) :
    ((updateState ext now y).cues = y.cues ∨
      (updateState ext now y).currentState ≠ y.currentState) ∧
    ((updateState ext now y).destructionLevel = y.destructionLevel ∨
      (y.currentState = St.RECOVERY ∧ 800 < now - y.stateStartTime)) ∧
    ((updateState ext now y).currentState = St.RECOVERY →
      (updateState ext now y).stateStartTime = now ∨
      (y.currentState = St.RECOVERY ∧
        (updateState ext now y).stateStartTime = y.stateStartTime ∧
        ¬ 800 < now - y.stateStartTime)) := by
  unfold updateState
  dsimp only
  cases y.currentState <;> dsimp only
  · -- NORMAL
    split
    · refine ⟨Or.inr (by simp [emitTone]), Or.inl (by simp [emitTone]), fun h => ?_⟩
      simp [emitTone] at h
    · exact ⟨Or.inl rfl, Or.inl rfl, fun h => by simp at h⟩
  · -- CRACK
    split
    · refine ⟨Or.inr ?_, Or.inl ?_, fun h => ?_⟩
      · simp [emitTone, generateParticles]
      · simp [emitTone, generateParticles]
      · simp [emitTone, generateParticles] at h
    · split
      · exact ⟨Or.inl rfl, Or.inl rfl, fun h => by simp at h⟩
      · exact ⟨Or.inl rfl, Or.inl rfl, fun h => by simp at h⟩
  · -- SHATTER
    simp only [updateParticles]
    rw [h0]
    rw [if_neg (show ¬ ((0:ℤ) < -2) by decide)]
    split
    · refine ⟨Or.inr (by simp), Or.inl (by simp), fun h => ?_⟩
      simp at h
    · exact ⟨Or.inl rfl, Or.inl rfl, fun h => by simp at h⟩
  · -- SILENCE
    rw [h0]
    rw [if_neg (show ¬ ((0:ℤ) < 0) by decide)]
    exact ⟨Or.inl rfl, Or.inl rfl, fun h => by simp at h⟩
  · -- REBUILD
    simp only [updateParticles]
    split
    · exact ⟨Or.inr (by simp [emitTone]), Or.inl (by simp [emitTone]),
        fun _ => Or.inl (by simp [emitTone])⟩
    · exact ⟨Or.inl rfl, Or.inl rfl, fun h => by simp at h⟩
  · -- RECOVERY
    split
    · next hdw => exact ⟨Or.inl rfl, Or.inr ⟨rfl, hdw⟩, fun h => by simp at h⟩
    · next hdw => exact ⟨Or.inl rfl, Or.inl rfl, fun _ => Or.inr ⟨rfl, rfl, hdw⟩⟩

/-- A zero-delta, no-press tick inside the idle window: the idle clock is
untouched, a nonempty cue list implies the category changed, the damage is
preserved unless a RECOVERY dwell expired, and ending in RECOVERY means either
having just entered it (`stateStartTime = now`) or dwelling with the 800 ms
not yet elapsed. -/
theorem tick_zero_facts (ext : Ext) (now : ℕ) (x : Sys)
    (hidle : now - x.lastInteractionTime ≤ AUTO_RECOVER_TIME) :
    (tick ext 0 Btn.noPress now x).lastInteractionTime = x.lastInteractionTime ∧
    ((tick ext 0 Btn.noPress now x).cues ≠ [] →
      (tick ext 0 Btn.noPress now x).currentState ≠ x.currentState) ∧
    ((tick ext 0 Btn.noPress now x).destructionLevel = x.destructionLevel ∨
      (x.currentState = St.RECOVERY ∧ 800 < now - x.stateStartTime)) ∧
    ((tick ext 0 Btn.noPress now x).currentState = St.RECOVERY →
      (tick ext 0 Btn.noPress now x).stateStartTime = now ∨
      (x.currentState = St.RECOVERY ∧
        (tick ext 0 Btn.noPress now x).stateStartTime = x.stateStartTime ∧
        ¬ 800 < now - x.stateStartTime)) := by
  rw [tick_eq, updateEncoder_zero, handleButton_noPress]
  have hq : ∀ z : Sys, z.lastInteractionTime = x.lastInteractionTime →
      autoRecover now z = z := by
    intro z hz
    apply autoRecover_quiet
    rintro ⟨-, hi⟩
    rw [hz] at hi
    simp only [AUTO_RECOVER_TIME] at hi hidle
    omega
  rw [hq _ (by rw [renderState_lastInteractionTime, updateState_lastInteractionTime])]
  have hU := updateState_zero_facts ext now
    ({ x with
        cues := [], lastUpdateTime := now, encoderDelta := 0,
        encoderValue := x.encoderValue + 0,
        rotationSpeed := x.rotationSpeed.mul ⟨9, 10⟩ }) rfl
  refine ⟨?_, ?_, ?_, ?_⟩
  · rw [renderState_lastInteractionTime, updateState_lastInteractionTime]
  · rw [renderState_cues, renderState_currentState]
    intro hne
    rcases hU.1 with h | h
    · exact absurd (by exact h) hne
    · exact (by exact h)
  · rcases hU.2.1 with h | h
    · left
      rw [renderState_destructionLevel]
      exact (by exact h)
    · exact Or.inr ⟨h.1, h.2⟩
  · rw [renderState_currentState, renderState_stateStartTime]
    intro hrec
    rcases hU.2.2 (by exact hrec) with h | h
    · exact Or.inl (by exact h)
    · exact Or.inr ⟨h.1, by exact h.2.1, h.2.2⟩

/-- C9 amended: under zero rotation delta and zero elapsed time (and within the
idle window) a second tick cannot touch the damage and cannot re-emit a cue
without changing the category — one-shot effects do not re-fire.  The state as
a whole, however, is not identical (see the counterexample): animation state
(particles, probabilistic cracks, rotation decay) keeps evolving. -/
theorem claim_C9_amended (ext : Ext) (now : ℕ) (s : Sys)
    (hidle : now - s.lastInteractionTime ≤ AUTO_RECOVER_TIME) :
    (tick ext 0 Btn.noPress now (tick ext 0 Btn.noPress now s)).destructionLevel
        = (tick ext 0 Btn.noPress now s).destructionLevel ∧
    ((tick ext 0 Btn.noPress now (tick ext 0 Btn.noPress now s)).cues ≠ [] →
      (tick ext 0 Btn.noPress now (tick ext 0 Btn.noPress now s)).currentState
        ≠ (tick ext 0 Btn.noPress now s).currentState) := by
  have h1 := tick_zero_facts ext now s hidle
  have hidle1 : now - (tick ext 0 Btn.noPress now s).lastInteractionTime
      ≤ AUTO_RECOVER_TIME := by
    rw [h1.1]
    exact hidle
  have h2 := tick_zero_facts ext now (tick ext 0 Btn.noPress now s) hidle1
  refine ⟨?_, h2.2.1⟩
  rcases h2.2.2.1 with h | h
  · exact h
  · rcases h1.2.2.2 h.1 with hsst | hsst
    · rw [hsst] at h
      exact absurd h.2 (by omega)
    · rw [hsst.2.1] at h
      exact absurd h.2 hsst.2.2

theorem claim_C9_amended_witness :
    (16 - sInit.lastInteractionTime ≤ AUTO_RECOVER_TIME) ∧
    ((tick extN 0 Btn.noPress 16 (tick extN 0 Btn.noPress 16 sInit)).destructionLevel
        = (tick extN 0 Btn.noPress 16 sInit).destructionLevel ∧
     ((tick extN 0 Btn.noPress 16 (tick extN 0 Btn.noPress 16 sInit)).cues ≠ [] →
       (tick extN 0 Btn.noPress 16 (tick extN 0 Btn.noPress 16 sInit)).currentState
         ≠ (tick extN 0 Btn.noPress 16 sInit).currentState)) :=
  ⟨by decide, claim_C9_amended extN 16 sInit (by decide)⟩

def sT1 : Sys := tick extF 0 Btn.noPress 48 sShat654

def sT2 : Sys := tick extF 0 Btn.noPress 48 sT1

set_option maxRecDepth 500000 in
theorem sT_facts :
    sT1.currentState = St.SHATTER ∧ sT2.currentState = St.SHATTER ∧
    sT2.particles ≠ sT1.particles := by decide

/-- C9 counterexample: from a reachable SHATTER state, two consecutive ticks
with zero delta and the same clock value do not produce identical state — the
particle store keeps animating (positions advance by velocity, alphas decay),
so the second tick's particles differ from the first's. -/
theorem claim_C9_counterexample :
    Reachable extF sShat654 ∧
    sT1 = tick extF 0 Btn.noPress 48 sShat654 ∧
    sT2 = tick extF 0 Btn.noPress 48 sT1 ∧
    sT2.particles ≠ sT1.particles :=
  ⟨Reachable.step 0 Btn.noPress 32 (Reachable.step 218 Btn.noPress 16 (Reachable.init 0 rng0)),
   rfl, rfl, sT_facts.2.2⟩

end GlassDial
